import Mathlib

/-!
# TAO transfer scripts (`transfer.js`, `batch-transfer.js`)

A shallow embedding of the two scripts.  The scripts are glue around the `ethers` library and the
JSON-RPC node, so the embedding makes those collaborators explicit:

* `Runtime ν` holds the pure library functions the scripts call (`ethers.parseEther`,
  `ethers.isAddress`, the `ethers.Wallet` constructor, `parseFloat`, `toString`, `toLowerCase`, ...)
  over an arbitrary carrier `ν` of JavaScript numbers;
* `Provider σ η` holds the stateful calls (`getNetwork`, `getBalance`, `estimateGas`, `getFeeData`,
  `sendTransaction`, `wait`) as functions on an explicit node state `σ`; each returns the next state
  and either a value or the message of the `Error` it throws;
* every effect the claims talk about (a submission, a finality wait, a `results.push`, a delay, a
  prompt) is appended to a trace of `Event`s.

Console output has no influence on control flow and is left out.  Thrown values are `Error`
objects, represented by their `message`.
-/

/-- The object handed to `wallet.sendTransaction`, with fields `to` (written `to_`), `value` and
`gasLimit`. -/
structure Tx where
  to_ : String
  value : Nat
  gasLimit : Nat
deriving DecidableEq, Repr

/-- The fields of a transaction receipt the scripts read. -/
structure Receipt where
  hash : String
  status : Nat
  gasUsed : Nat
  blockNumber : Nat
  gasPrice : Nat
deriving DecidableEq, Repr

/-- One entry of the hard-coded / supplied recipient list: `{ address, amount }`. -/
structure Recipient (ν : Type) where
  address : String
  amount : ν
deriving DecidableEq, Repr

/-- One entry of the `results` array built by `batchTransfer`.  The success object has `gasUsed`
and no `error`; the catch object has `error` and no `gasUsed`. -/
structure TransferResult (ν : Type) where
  recipient : String
  amount : ν
  hash : String
  status : String
  gasUsed : Option String
  error : Option String
deriving DecidableEq, Repr

/-- Observable effects, in program order. -/
inductive Event (ν : Type) where
  | question (prompt : String)
  | sendTransaction (tx : Tx)
  | wait
  | push (r : TransferResult ν)
  | delay (ms : Nat)
deriving DecidableEq, Repr

/-- Pure functions of the JavaScript runtime and of `ethers` used by the scripts. -/
structure Runtime (ν : Type) where
  /-- The method `Number.prototype.toString` -/
  numberToString : ν → String
  /-- The function `ethers.parseEther`, which throws on text it cannot convert -/
  parseEther : String → Except String Nat
  /-- The global `parseFloat` -/
  parseFloat : String → ν
  /-- The global `isNaN` -/
  isNaN : ν → Bool
  /-- The comparison `amount <= 0` -/
  leZero : ν → Bool
  /-- The function `ethers.isAddress` -/
  isAddress : String → Bool
  /-- The method `String.prototype.toLowerCase` -/
  toLowerCase : String → String
  /-- The constructor `new ethers.Wallet(key, provider)`: the wallet address, or the thrown message -/
  newWallet : String → Except String String

/-- Stateful calls on the JSON-RPC provider and the wallet bound to it.  `σ` is the state of the
node/connection, `η` the `TransactionResponse` returned by a submission. -/
structure Provider (σ η : Type) where
  getNetwork : σ → σ × Except String Unit
  getBalance : σ → String → σ × Except String Nat
  /-- The call `provider.estimateGas` on the fields `to`, `value`, `from` -/
  estimateGas : σ → String → Nat → String → σ × Except String Nat
  /-- The call `provider.getFeeData()`, reduced to its `gasPrice` field (`null` is `none`) -/
  getFeeData : σ → σ × Except String (Option Nat)
  sendTransaction : σ → Tx → σ × Except String η
  wait : σ → η → σ × Except String Receipt

/-- The expression `privateKey.startsWith('0x') ? privateKey : '0x' + privateKey`; `startsWith`
compares the leading characters. -/
def formatPrivateKey (privateKey : String) : String :=
  if "0x".toList.isPrefixOf privateKey.toList then privateKey else "0x" ++ privateKey

namespace BatchTAOTransfer

/-- The mutable variables of a `batchTransfer` call: node state, the `results` array, and the
effect trace. -/
structure BatchState (σ ν : Type) where
  chain : σ
  results : List (TransferResult ν)
  trace : List (Event ν)

/-- The `try` block of the loop body (lines 46-74).  Returns the state reached and, when a
statement throws, the message of the thrown error. -/
def tryBlock {σ η ν : Type} (rt : Runtime ν) (w : Provider σ η) (len i : Nat)
    (recipient : Recipient ν) (st : BatchState σ ν) : BatchState σ ν × Except String Unit :=
  match rt.parseEther (rt.numberToString recipient.amount) with
  | .error e => (st, .error e)
  | .ok value =>
    let tx : Tx := { to_ := recipient.address, value := value, gasLimit := 21000 }
    match w.sendTransaction st.chain tx with
    | (c1, .error e) => ({ st with chain := c1, trace := st.trace ++ [.sendTransaction tx] }, .error e)
    | (c1, .ok txResponse) =>
      match w.wait c1 txResponse with
      | (c2, .error e) =>
        ({ st with chain := c2, trace := st.trace ++ [.sendTransaction tx, .wait] }, .error e)
      | (c2, .ok receipt) =>
        let r : TransferResult ν :=
          { recipient := recipient.address
            amount := recipient.amount
            hash := receipt.hash
            status := if receipt.status = 1 then "Success" else "Failed"
            gasUsed := some (toString receipt.gasUsed)
            error := none }
        let st1 : BatchState σ ν :=
          { chain := c2
            results := st.results ++ [r]
            trace := st.trace ++ [.sendTransaction tx, .wait, .push r] }
        if (i : Int) < (len : Int) - 1 then
          ({ st1 with trace := st1.trace ++ [.delay 2000] }, .ok ())
        else
          (st1, .ok ())

/-- The `catch (error)` block of the loop body (lines 75-84). -/
def catchBlock {σ ν : Type} (recipient : Recipient ν) (error : String) (st : BatchState σ ν) :
    BatchState σ ν :=
  let r : TransferResult ν :=
    { recipient := recipient.address
      amount := recipient.amount
      hash := "N/A"
      status := "Error"
      gasUsed := none
      error := some error }
  { st with results := st.results ++ [r], trace := st.trace ++ [.push r] }

/-- One iteration of the `for` loop: `try { ... } catch (error) { ... }`. -/
def loopBody {σ η ν : Type} (rt : Runtime ν) (w : Provider σ η) (len i : Nat)
    (recipient : Recipient ν) (st : BatchState σ ν) : BatchState σ ν :=
  match tryBlock rt w len i recipient st with
  | (st1, .ok _) => st1
  | (st1, .error e) => catchBlock recipient e st1

/-- The loop `for (let i = 0; i < recipients.length; i++)`, as a recursion on the
recipients still to be processed; `i` is the index of the first of them and `len` is
`recipients.length`. -/
def loop {σ η ν : Type} (rt : Runtime ν) (w : Provider σ η) (len : Nat) :
    Nat → List (Recipient ν) → BatchState σ ν → BatchState σ ν
  | _, [], st => st
  | i, recipient :: rest, st => loop rt w len (i + 1) rest (loopBody rt w len i recipient st)

/-- The method `batchTransfer(recipients)`, started on node state `chain`. -/
def batchTransfer {σ η ν : Type} (rt : Runtime ν) (w : Provider σ η)
    (recipients : List (Recipient ν)) (chain : σ) : BatchState σ ν :=
  loop rt w recipients.length 0 recipients { chain := chain, results := [], trace := [] }

/-- The counts `printSummary` computes and prints. -/
structure Summary where
  successful : Nat
  failed : Nat
  total : Nat
deriving DecidableEq, Repr

/-- The method `printSummary(results)`: the three counts of lines 94-99. -/
def printSummary {ν : Type} (results : List (TransferResult ν)) : Summary :=
  { successful := (results.filter (fun r => r.status == "Success")).length
    failed := (results.filter (fun r => r.status != "Success")).length
    total := results.length }

/-- What a run of the script leaves behind: the node state, the effect trace, the `results` array
when `batchTransfer` was called, the counts printed by `printSummary`, and the exit code of the
process.  The file never calls `process.exit`, so the process ends with code 0 once `run`
returns. -/
structure RunOutcome (σ ν : Type) where
  chain : σ
  trace : List (Event ν)
  results : Option (List (TransferResult ν))
  summary : Option Summary
  exitCode : Nat

/-- The method `initialize()` (lines 14-33; the name is reserved in Lean, hence `init`): prompt for the key, build the wallet, query the
balance.  Either of the two library calls may throw. -/
def init {σ η ν : Type} (rt : Runtime ν) (w : Provider σ η) (privateKey : String)
    (chain : σ) : σ × List (Event ν) × Except String Nat :=
  let trace : List (Event ν) := [.question "Enter sender private key: "]
  match rt.newWallet (formatPrivateKey privateKey) with
  | .error e => (chain, trace, .error e)
  | .ok address =>
    match w.getBalance chain address with
    | (c, .error e) => (c, trace, .error e)
    | (c, .ok balance) => (c, trace, .ok balance)

/-- The hard-coded recipient list of `run` (lines 121-125). -/
def recipients {ν : Type} [OfScientific ν] : List (Recipient ν) :=
  [ { address := "0x1234567890123456789012345678901234567890", amount := 0.1 },
    { address := "0x0987654321098765432109876543210987654321", amount := 0.2 },
    { address := "0x1111111111111111111111111111111111111111", amount := 0.15 } ]

/-- The method `run()` (lines 116-145).  `privateKey` and `confirm` are the two answers typed at the
prompts.  The `catch` of `run` only prints the error. -/
def run {σ η ν : Type} [OfScientific ν] (rt : Runtime ν) (w : Provider σ η)
    (privateKey confirm : String) (chain : σ) : RunOutcome σ ν :=
  match init rt w privateKey chain with
  | (c, trace, .error _) =>
    { chain := c, trace := trace, results := none, summary := none, exitCode := 0 }
  | (c, trace, .ok _) =>
    let trace1 : List (Event ν) := trace ++ [.question "\nProceed with batch transfer? (yes/no): "]
    if rt.toLowerCase confirm ≠ "yes" ∧ rt.toLowerCase confirm ≠ "y" then
      { chain := c, trace := trace1, results := none, summary := none, exitCode := 0 }
    else
      let b := batchTransfer rt w recipients c
      { chain := b.chain
        trace := trace1 ++ b.trace
        results := some b.results
        summary := some (printSummary b.results)
        exitCode := 0 }

end BatchTAOTransfer

namespace TAOTransfer

/-- How a method of the script stops early: by throwing an `Error` with the given message, or by
calling `process.exit(code)`. -/
inductive Halt where
  | thrown (message : String)
  | exited (code : Nat)
deriving DecidableEq, Repr

/-- The node state and effect trace threaded through the methods. -/
structure RunState (σ ν : Type) where
  chain : σ
  trace : List (Event ν)

/-- The method `initialize()` (lines 15-28; the name is reserved in Lean, hence `init`): a failed network query ends the process with
`process.exit(1)`. -/
def init {σ η ν : Type} (w : Provider σ η) (st : RunState σ ν) :
    RunState σ ν × Except Halt Unit :=
  match w.getNetwork st.chain with
  | (c, .ok _) => ({ st with chain := c }, .ok ())
  | (c, .error _) => ({ st with chain := c }, .error (.exited 1))

/-- The method `getWalletInfo()` (lines 30-53); returns the wallet address. -/
def getWalletInfo {σ ν : Type} (rt : Runtime ν) (privateKey : String) (st : RunState σ ν) :
    RunState σ ν × Except Halt String :=
  let st1 : RunState σ ν :=
    { st with trace := st.trace ++ [.question "Enter sender private key (without 0x prefix): "] }
  if privateKey = "" then
    (st1, .error (.thrown "Private key is required"))
  else
    match rt.newWallet (formatPrivateKey privateKey) with
    | .ok address => (st1, .ok address)
    | .error e => (st1, .error (.thrown ("Invalid private key: " ++ e)))

/-- The method `checkBalance()` (lines 83-92). -/
def checkBalance {σ η ν : Type} (w : Provider σ η) (address : String) (st : RunState σ ν) :
    RunState σ ν × Except Halt Nat :=
  match w.getBalance st.chain address with
  | (c, .ok balance) => ({ st with chain := c }, .ok balance)
  | (c, .error e) => ({ st with chain := c }, .error (.thrown ("Failed to check balance: " ++ e)))

/-- The value returned by `getTransferDetails()`. -/
structure TransferDetails (ν : Type) where
  receiverAddress : String
  amount : ν
  amountWei : Nat

/-- The method `getTransferDetails()` (lines 55-81). -/
def getTransferDetails {σ ν : Type} (rt : Runtime ν) (receiverAddress amountInput : String)
    (st : RunState σ ν) : RunState σ ν × Except Halt (TransferDetails ν) :=
  let st1 : RunState σ ν := { st with trace := st.trace ++ [.question "Enter receiver address: "] }
  if rt.isAddress receiverAddress = false then
    (st1, .error (.thrown "Invalid receiver address"))
  else
    let st2 : RunState σ ν :=
      { st1 with trace := st1.trace ++ [.question "Enter amount to transfer (in TAO): "] }
    let amount := rt.parseFloat amountInput
    if rt.isNaN amount = true ∨ rt.leZero amount = true then
      (st2, .error (.thrown "Invalid amount"))
    else
      match rt.parseEther (rt.numberToString amount) with
      | .error e => (st2, .error (.thrown e))
      | .ok amountWei =>
        (st2, .ok { receiverAddress := receiverAddress, amount := amount, amountWei := amountWei })

/-- The value returned by `estimateGas`. -/
structure GasInfo where
  gasEstimate : Nat
  gasPrice : Nat
  estimatedFee : Nat
deriving DecidableEq, Repr

/-- The method `estimateGas(receiverAddress, amountWei)` (lines 94-112).  A `null` gas price
makes the bigint product throw a `TypeError` inside the `try`. -/
def estimateGas {σ η ν : Type} (w : Provider σ η) (address receiverAddress : String)
    (amountWei : Nat) (st : RunState σ ν) : RunState σ ν × Except Halt GasInfo :=
  match w.estimateGas st.chain receiverAddress amountWei address with
  | (c1, .error e) =>
    ({ st with chain := c1 }, .error (.thrown ("Failed to estimate gas: " ++ e)))
  | (c1, .ok gasEstimate) =>
    match w.getFeeData c1 with
    | (c2, .error e) =>
      ({ st with chain := c2 }, .error (.thrown ("Failed to estimate gas: " ++ e)))
    | (c2, .ok none) =>
      ({ st with chain := c2 },
        .error (.thrown ("Failed to estimate gas: " ++
          "Cannot mix BigInt and other types, use explicit conversions")))
    | (c2, .ok (some gasPrice)) =>
      ({ st with chain := c2 },
        .ok { gasEstimate := gasEstimate, gasPrice := gasPrice,
              estimatedFee := gasEstimate * gasPrice })

/-- The method `performTransfer(receiverAddress, amountWei)` (lines 114-146). -/
def performTransfer {σ η ν : Type} (w : Provider σ η) (receiverAddress : String) (amountWei : Nat)
    (st : RunState σ ν) : RunState σ ν × Except Halt Receipt :=
  let tx : Tx := { to_ := receiverAddress, value := amountWei, gasLimit := 21000 }
  match w.sendTransaction st.chain tx with
  | (c1, .error e) =>
    ({ chain := c1, trace := st.trace ++ [.sendTransaction tx] },
      .error (.thrown ("Transfer failed: " ++ e)))
  | (c1, .ok txResponse) =>
    match w.wait c1 txResponse with
    | (c2, .error e) =>
      ({ chain := c2, trace := st.trace ++ [.sendTransaction tx, .wait] },
        .error (.thrown ("Transfer failed: " ++ e)))
    | (c2, .ok receipt) =>
      ({ chain := c2, trace := st.trace ++ [.sendTransaction tx, .wait] }, .ok receipt)

/-- The answers typed at the four prompts of the script. -/
structure Inputs where
  privateKey : String
  receiverAddress : String
  amountInput : String
  confirm : String

/-- What a run leaves behind: node state, effect trace, the receipt handed to `showSummary`
(if the run got that far) and the exit code of the process: the code given to
`process.exit`, or 0 when `run` returns. -/
structure RunOutcome (σ ν : Type) where
  chain : σ
  trace : List (Event ν)
  receipt : Option Receipt
  exitCode : Nat

/-- The `catch` of `run` (lines 200-203) and the `process.exit(1)` inside `initialize`:
a thrown error is printed and the process exits with 1; an exit keeps its own code. -/
def halted {σ ν : Type} (st : RunState σ ν) : Halt → RunOutcome σ ν
  | .thrown _ => { chain := st.chain, trace := st.trace, receipt := none, exitCode := 1 }
  | .exited code => { chain := st.chain, trace := st.trace, receipt := none, exitCode := code }

/-- The method `run()` (lines 159-204). -/
def run {σ η ν : Type} (rt : Runtime ν) (w : Provider σ η) (inp : Inputs) (chain : σ) :
    RunOutcome σ ν :=
  match init w { chain := chain, trace := [] } with
  | (st, .error h) => halted st h
  | (st, .ok _) =>
  match getWalletInfo rt inp.privateKey st with
  | (st, .error h) => halted st h
  | (st, .ok address) =>
  match checkBalance w address st with
  | (st, .error h) => halted st h
  | (st, .ok balance) =>
  match getTransferDetails rt inp.receiverAddress inp.amountInput st with
  | (st, .error h) => halted st h
  | (st, .ok details) =>
  if balance < details.amountWei then
    halted st (.thrown "Insufficient balance for transfer")
  else
  match estimateGas w address details.receiverAddress details.amountWei st with
  | (st, .error h) => halted st h
  | (st, .ok gas) =>
  if balance < details.amountWei + gas.estimatedFee then
    halted st (.thrown "Insufficient balance for transfer including gas fees")
  else
  let st1 : RunState σ ν := { st with trace := st.trace ++ [.question "\nConfirm transfer? (yes/no): "] }
  if rt.toLowerCase inp.confirm ≠ "yes" ∧ rt.toLowerCase inp.confirm ≠ "y" then
    { chain := st1.chain, trace := st1.trace, receipt := none, exitCode := 0 }
  else
  match performTransfer w details.receiverAddress details.amountWei st1 with
  | (st, .error h) => halted st h
  | (st, .ok receipt) =>
    { chain := st.chain, trace := st.trace, receipt := some receipt, exitCode := 0 }

end TAOTransfer

/-! ## Observations on traces and runs -/

/-- The transactions submitted in a trace, in order. -/
def sends {ν : Type} : List (Event ν) → List Tx
  | [] => []
  | .sendTransaction tx :: t => tx :: sends t
  | _ :: t => sends t

/-- The result objects pushed in a trace, in order. -/
def pushes {ν : Type} : List (Event ν) → List (TransferResult ν)
  | [] => []
  | .push r :: t => r :: pushes t
  | _ :: t => pushes t

/-- The number of inter-item delays awaited in a trace. -/
def delays {ν : Type} : List (Event ν) → Nat
  | [] => 0
  | .delay _ :: t => delays t + 1
  | _ :: t => delays t

namespace BatchTAOTransfer

/-- The transaction object the loop builds for a recipient, when the amount converts. -/
def intent {ν : Type} (rt : Runtime ν) (recipient : Recipient ν) : Option Tx :=
  match rt.parseEther (rt.numberToString recipient.amount) with
  | .error _ => none
  | .ok value => some { to_ := recipient.address, value := value, gasLimit := 21000 }

/-- The node state at the moment the loop of `batchTransfer recipients` reaches index `i`:
the state left by the first `i` iterations. -/
def chainBefore {σ η ν : Type} (rt : Runtime ν) (w : Provider σ η)
    (recipients : List (Recipient ν)) (chain : σ) (i : Nat) : σ :=
  (loop rt w recipients.length 0 (recipients.take i)
    { chain := chain, results := [], trace := [] }).chain

end BatchTAOTransfer

namespace TAOTransfer

/-- A trace in which nothing has been submitted and the confirmation prompt has not been shown. -/
def Quiet {ν : Type} (T : List (Event ν)) : Prop :=
  sends T = [] ∧ Event.question "\nConfirm transfer? (yes/no): " ∉ T

/-- The ways a method of the script halts: `process.exit(1)` or a thrown error. -/
def Fatal (h : Halt) : Prop := h = .exited 1 ∨ ∃ m, h = .thrown m

end TAOTransfer

/-! ## A mock runtime and a mock node, for concrete runs -/

/-- A decimal literal `mantissa * 10^(-exponent)`: the carrier of numbers in the concrete runs. -/
structure Dec where
  mantissa : Nat
  exponent : Nat
deriving DecidableEq, Repr

instance : OfScientific Dec := ⟨fun m _ e => ⟨m, e⟩⟩

/-- A runtime that renders and converts the three amounts of the hard-coded list, rejects any
other amount text, accepts 42-character addresses and 66-character keys, and lowers ASCII
letters. -/
def mockRuntime : Runtime Dec where
  numberToString := fun d =>
    if d = ⟨1, 1⟩ then "0.1" else if d = ⟨2, 1⟩ then "0.2" else if d = ⟨15, 2⟩ then "0.15"
    else "1e-7"
  parseEther := fun s =>
    if s = "0.1" then .ok 100000000000000000
    else if s = "0.2" then .ok 200000000000000000
    else if s = "0.15" then .ok 150000000000000000
    else .error "invalid FixedNumber string value"
  parseFloat := fun s =>
    if s = "0.1" then ⟨1, 1⟩ else if s = "0.2" then ⟨2, 1⟩ else ⟨0, 0⟩
  isNaN := fun _ => false
  leZero := fun d => d.mantissa == 0
  isAddress := fun s => s.length == 42
  toLowerCase := fun s => ⟨s.toList.map Char.toLower⟩
  newWallet := fun k => if k.length == 66 then .ok "0xSender" else .error "invalid private key"

/-- A node whose state counts the submissions seen so far.  A submission to the address `bad`
throws "insufficient funds"; any other is accepted and confirmed with receipt status `status`.
The balance is `balance`; gas is estimated at 21000 units at price 10. -/
def mockProvider (bad : String) (status balance : Nat) : Provider Nat Nat where
  getNetwork := fun c => (c, .ok ())
  getBalance := fun c _ => (c, .ok balance)
  estimateGas := fun c _ _ _ => (c, .ok 21000)
  getFeeData := fun c => (c, .ok (some 10))
  sendTransaction := fun c tx =>
    if tx.to_ = bad then (c + 1, .error "insufficient funds") else (c + 1, .ok c)
  wait := fun c h =>
    (c, .ok { hash := "0xh" ++ toString h, status := status, gasUsed := 21000, blockNumber := 7,
              gasPrice := 10 })

/-- The three recipients A, B, C of the hard-coded list. -/
def addrA : String := "0x1234567890123456789012345678901234567890"

/-- The second recipient. -/
def addrB : String := "0x0987654321098765432109876543210987654321"

/-- The third recipient. -/
def addrC : String := "0x1111111111111111111111111111111111111111"

/-- The transaction built for A. -/
def txA : Tx := { to_ := addrA, value := 100000000000000000, gasLimit := 21000 }

/-- The transaction built for B. -/
def txB : Tx := { to_ := addrB, value := 200000000000000000, gasLimit := 21000 }

/-- The result recorded for A when its submission is rejected. -/
def errorA : TransferResult Dec :=
  { recipient := addrA, amount := 0.1, hash := "N/A", status := "Error", gasUsed := none,
    error := some "insufficient funds" }

/-- The result recorded for B when it is the second submission and is confirmed. -/
def successB : TransferResult Dec :=
  { recipient := addrB, amount := 0.2, hash := "0xh1", status := "Success",
    gasUsed := some "21000", error := none }

/-- A node that cannot be reached: every call throws "network unreachable". -/
def unreachableProvider : Provider Nat Nat where
  getNetwork := fun c => (c, .error "network unreachable")
  getBalance := fun c _ => (c, .error "network unreachable")
  estimateGas := fun c _ _ _ => (c, .error "network unreachable")
  getFeeData := fun c => (c, .error "network unreachable")
  sendTransaction := fun c _ => (c, .error "network unreachable")
  wait := fun c _ => (c, .error "network unreachable")

/-- A 64-digit private key, as typed at the prompt (without the `0x` prefix). -/
def mockKey : String := "0123456789abcdef0123456789abcdef0123456789abcdef0123456789abcdef"

/-- The answers of a user who sends `amountInput` TAO to A and answers `confirm` at the
confirmation prompt. -/
def mockInputs (amountInput confirm : String) : TAOTransfer.Inputs :=
  { privateKey := mockKey, receiverAddress := addrA, amountInput := amountInput,
    confirm := confirm }

/-! ## Lemmas on traces -/

theorem sends_append {ν : Type} (a b : List (Event ν)) : sends (a ++ b) = sends a ++ sends b := by
  induction a with
  | nil => rfl
  | cons e t ih => cases e <;> simp [sends, ih]

theorem pushes_append {ν : Type} (a b : List (Event ν)) :
    pushes (a ++ b) = pushes a ++ pushes b := by
  induction a with
  | nil => rfl
  | cons e t ih => cases e <;> simp [pushes, ih]

theorem delays_append {ν : Type} (a b : List (Event ν)) :
    delays (a ++ b) = delays a + delays b := by
  induction a with
  | nil => simp [delays]
  | cons e t ih => cases e <;> simp [delays, ih]; omega

/-! ## Lemmas on the batch loop -/

namespace BatchTAOTransfer

theorem mem_sends {ν : Type} (tx : Tx) (T : List (Event ν)) :
    tx ∈ sends T ↔ Event.sendTransaction tx ∈ T := by
  induction T with
  | nil => simp [sends]
  | cons e t ih => cases e <;> simp [sends, ih]

theorem intent_eq_some {ν : Type} (rt : Runtime ν) (rc : Recipient ν) (tx : Tx)
    (h : intent rt rc = some tx) :
    ∃ value, rt.parseEther (rt.numberToString rc.amount) = .ok value ∧
      tx = { to_ := rc.address, value := value, gasLimit := 21000 } := by
  unfold intent at h
  cases hconv : rt.parseEther (rt.numberToString rc.amount) with
  | error e => rw [hconv] at h; cases h
  | ok value =>
    rw [hconv] at h
    exact ⟨value, rfl, (Option.some.inj h).symm⟩

/-- One iteration appends exactly one result, copied from its recipient, and a trace segment
that starts with the submission when the amount converts and holds no other submission. -/
theorem loopBody_spec {σ η ν : Type} (rt : Runtime ν) (w : Provider σ η) (len i : Nat)
    (rc : Recipient ν) (st : BatchState σ ν) :
    ∃ c r item, loopBody rt w len i rc st =
        { chain := c, results := st.results ++ [r], trace := st.trace ++ item } ∧
      r.recipient = rc.address ∧ r.amount = rc.amount ∧ pushes item = [r] ∧
      ((intent rt rc = none ∧ item = [.push r]) ∨
        (∃ tx tail, intent rt rc = some tx ∧ item = .sendTransaction tx :: tail ∧
          sends tail = [])) := by
  unfold loopBody tryBlock catchBlock intent
  cases hconv : rt.parseEther (rt.numberToString rc.amount) with
  | error e => exact ⟨_, _, _, rfl, rfl, rfl, rfl, Or.inl ⟨rfl, rfl⟩⟩
  | ok value =>
    simp only []
    rcases hsend : w.sendTransaction st.chain
      { to_ := rc.address, value := value, gasLimit := 21000 } with ⟨c1, e | txResponse⟩
    · refine ⟨c1, ⟨rc.address, rc.amount, "N/A", "Error", none, some e⟩,
        [.sendTransaction _, .push _], ?_, rfl, rfl, rfl, Or.inr ⟨_, _, rfl, rfl, rfl⟩⟩
      simp
    · simp only []
      rcases hwait : w.wait c1 txResponse with ⟨c2, e | receipt⟩
      · refine ⟨c2, ⟨rc.address, rc.amount, "N/A", "Error", none, some e⟩,
          [.sendTransaction _, .wait, .push _], ?_, rfl, rfl, rfl, Or.inr ⟨_, _, rfl, rfl, rfl⟩⟩
        simp
      · simp only []
        by_cases hlast : (i : Int) < (len : Int) - 1
        · rw [if_pos hlast]
          refine ⟨c2, ⟨rc.address, rc.amount, receipt.hash,
            if receipt.status = 1 then "Success" else "Failed", some (toString receipt.gasUsed),
            none⟩, [.sendTransaction _, .wait, .push _, .delay 2000], ?_, rfl, rfl, rfl,
            Or.inr ⟨_, _, rfl, rfl, rfl⟩⟩
          simp
        · rw [if_neg hlast]
          refine ⟨c2, ⟨rc.address, rc.amount, receipt.hash,
            if receipt.status = 1 then "Success" else "Failed", some (toString receipt.gasUsed),
            none⟩, [.sendTransaction _, .wait, .push _], ?_, rfl, rfl, rfl,
            Or.inr ⟨_, _, rfl, rfl, rfl⟩⟩
          simp

/-- The result an iteration appends depends on the state it starts from only through the node
state. -/
theorem loopBody_results_frame {σ η ν : Type} (rt : Runtime ν) (w : Provider σ η) (len i : Nat)
    (rc : Recipient ν) (st : BatchState σ ν) :
    (loopBody rt w len i rc st).results =
      st.results ++
        (loopBody rt w len i rc { chain := st.chain, results := [], trace := [] }).results := by
  unfold loopBody tryBlock catchBlock
  cases hconv : rt.parseEther (rt.numberToString rc.amount) with
  | error e => simp
  | ok value =>
    simp only []
    rcases hsend : w.sendTransaction st.chain
      { to_ := rc.address, value := value, gasLimit := 21000 } with ⟨c1, e | txResponse⟩
    · simp
    · simp only []
      rcases hwait : w.wait c1 txResponse with ⟨c2, e | receipt⟩
      · simp
      · by_cases hlast : (i : Int) < (len : Int) - 1 <;> simp [hlast]

theorem loop_append {σ η ν : Type} (rt : Runtime ν) (w : Provider σ η) (len : Nat)
    (xs ys : List (Recipient ν)) (i : Nat) (st : BatchState σ ν) :
    loop rt w len i (xs ++ ys) st = loop rt w len (i + xs.length) ys (loop rt w len i xs st) := by
  induction xs generalizing i st with
  | nil => simp [loop]
  | cons x t ih =>
    show loop rt w len (i + 1) (t ++ ys) (loopBody rt w len i x st) = _
    rw [ih, List.length_cons, loop]
    congr 1
    omega

/-- The loop appends one result per remaining recipient, copied from it, and a trace whose
pushes are those results and whose submissions are the intents of the recipients. -/
theorem loop_spec {σ η ν : Type} (rt : Runtime ν) (w : Provider σ η) (len : Nat)
    (xs : List (Recipient ν)) (i : Nat) (st : BatchState σ ν) :
    ∃ X T, (loop rt w len i xs st).results = st.results ++ X ∧
      (loop rt w len i xs st).trace = st.trace ++ T ∧
      X.map (fun r => (r.recipient, r.amount)) = xs.map (fun r => (r.address, r.amount)) ∧
      pushes T = X ∧ sends T = xs.filterMap (intent rt) := by
  induction xs generalizing i st with
  | nil => exact ⟨[], [], by simp [loop], by simp [loop], rfl, rfl, rfl⟩
  | cons x t ih =>
    obtain ⟨c, r, item, hbody, hrec, hamt, hpush, hshape⟩ := loopBody_spec rt w len i x st
    obtain ⟨X, T, hres, htr, hmap, hp, hs⟩ := ih (i + 1) (loopBody rt w len i x st)
    refine ⟨r :: X, item ++ T, ?_, ?_, ?_, ?_, ?_⟩
    · rw [loop, hres, hbody]; simp
    · rw [loop, htr, hbody]; simp
    · simp [hmap, hrec, hamt]
    · rw [pushes_append, hpush, hp]; rfl
    · rw [sends_append, hs]
      rcases hshape with ⟨hnone, hitem⟩ | ⟨tx, tail, hsome, hitem, htail⟩
      · simp [hitem, sends, List.filterMap_cons, hnone]
      · simp [hitem, sends, List.filterMap_cons, hsome, htail]

theorem loop_results_length {σ η ν : Type} (rt : Runtime ν) (w : Provider σ η) (len : Nat)
    (xs : List (Recipient ν)) (i : Nat) (st : BatchState σ ν) :
    (loop rt w len i xs st).results.length = st.results.length + xs.length := by
  obtain ⟨X, T, hres, -, hmap, -, -⟩ := loop_spec rt w len xs i st
  have hlen : X.length = xs.length := by simpa using congrArg List.length hmap
  rw [hres, List.length_append, hlen]

/-- Splitting the run at index `i`: the first `i` iterations, the iteration for
`recipients[i]`, and the rest. -/
theorem batchTransfer_split {σ η ν : Type} (rt : Runtime ν) (w : Provider σ η)
    (recipients : List (Recipient ν)) (chain : σ) (i : Nat) (rc : Recipient ν)
    (hrc : recipients[i]? = some rc) :
    batchTransfer rt w recipients chain =
      loop rt w recipients.length (i + 1) (recipients.drop (i + 1))
        (loopBody rt w recipients.length i rc
          (loop rt w recipients.length 0 (recipients.take i)
            { chain := chain, results := [], trace := [] })) := by
  have hi : i < recipients.length := by
    rcases Nat.lt_or_ge i recipients.length with h | h
    · exact h
    · rw [List.getElem?_eq_none h] at hrc; cases hrc
  have hget : recipients[i] = rc := by
    rw [List.getElem?_eq_getElem hi] at hrc; exact Option.some.inj hrc
  have hdecomp : recipients = recipients.take i ++ rc :: recipients.drop (i + 1) := by
    rw [← hget, ← List.drop_eq_getElem_cons hi, List.take_append_drop]
  have hlen : (recipients.take i).length = i := by
    rw [List.length_take]; omega
  unfold batchTransfer
  conv_lhs => rw [hdecomp]
  rw [loop_append, hlen, Nat.zero_add, loop]
  rw [← hdecomp]

/-- The entry of the final `results` at index `i` is the single result the iteration for
`recipients[i]` appends. -/
theorem batchTransfer_result_at {σ η ν : Type} (rt : Runtime ν) (w : Provider σ η)
    (recipients : List (Recipient ν)) (chain : σ) (i : Nat) (rc : Recipient ν)
    (hrc : recipients[i]? = some rc) (r : TransferResult ν)
    (hbody : ∀ st : BatchState σ ν, st.chain = chainBefore rt w recipients chain i →
      (loopBody rt w recipients.length i rc st).results = st.results ++ [r]) :
    (batchTransfer rt w recipients chain).results[i]? = some r := by
  have hi : i < recipients.length := by
    rcases Nat.lt_or_ge i recipients.length with h | h
    · exact h
    · rw [List.getElem?_eq_none h] at hrc; cases hrc
  rw [batchTransfer_split rt w recipients chain i rc hrc]
  obtain ⟨X, T, hres, -, -, -, -⟩ := loop_spec rt w recipients.length (recipients.drop (i + 1))
    (i + 1) (loopBody rt w recipients.length i rc
      (loop rt w recipients.length 0 (recipients.take i)
        { chain := chain, results := [], trace := [] }))
  have hpre := loop_results_length rt w recipients.length (recipients.take i) 0
    { chain := chain, results := [], trace := [] }
  have hlen : (recipients.take i).length = i := by
    rw [List.length_take]; omega
  rw [hres, hbody _ rfl]
  simp only [List.length_nil, Nat.zero_add, hlen] at hpre
  rw [List.append_assoc, List.getElem?_append_right (by omega), hpre]
  simp

/-- The submissions of one iteration are the intent of its recipient, if any. -/
theorem sends_item {ν : Type} (rt : Runtime ν) (rc : Recipient ν) (r : TransferResult ν)
    (item : List (Event ν))
    (hshape : (intent rt rc = none ∧ item = [.push r]) ∨
      (∃ tx tail, intent rt rc = some tx ∧ item = .sendTransaction tx :: tail ∧ sends tail = [])) :
    sends item = (intent rt rc).toList := by
  rcases hshape with ⟨hnone, hitem⟩ | ⟨tx, tail, hsome, hitem, htail⟩
  · simp [hitem, hnone, sends]
  · simp [hitem, hsome, sends, htail]

/-- A submission found inside the trace segment of one iteration is the head of the segment. -/
theorem item_send_head {ν : Type} (rt : Runtime ν) (rc : Recipient ν) (r : TransferResult ν)
    (item a post : List (Event ν)) (tx : Tx)
    (hshape : (intent rt rc = none ∧ item = [.push r]) ∨
      (∃ tx0 tail, intent rt rc = some tx0 ∧ item = .sendTransaction tx0 :: tail ∧
        sends tail = []))
    (hsplit : item = a ++ .sendTransaction tx :: post) :
    a = [] ∧ intent rt rc = some tx := by
  rcases hshape with ⟨-, hitem⟩ | ⟨tx0, tail, hsome, hitem, htail⟩
  · have hmem : tx ∈ sends item := by
      rw [hsplit, sends_append]; simp [sends]
    rw [hitem] at hmem
    simp [sends] at hmem
  · cases a with
    | nil =>
      rw [hitem] at hsplit
      simp only [List.nil_append, List.cons.injEq, Event.sendTransaction.injEq] at hsplit
      exact ⟨rfl, by rw [hsome, hsplit.1]⟩
    | cons e a2 =>
      rw [hitem] at hsplit
      simp only [List.cons_append, List.cons.injEq] at hsplit
      have hmem : tx ∈ sends tail := by
        rw [hsplit.2, sends_append]; simp [sends]
      rw [htail] at hmem
      cases hmem

/-- Wherever a submission stands in the trace of the loop, it either stood in the trace the loop
started from, or it is the intent of a remaining recipient `xs[j]`, and the trace before it holds
exactly `j` further pushes and the submissions of the `j` recipients before it. -/
theorem loop_send_split {σ η ν : Type} (rt : Runtime ν) (w : Provider σ η) (len : Nat)
    (xs : List (Recipient ν)) (i : Nat) (st : BatchState σ ν) (pre post : List (Event ν))
    (tx : Tx) (h : (loop rt w len i xs st).trace = pre ++ .sendTransaction tx :: post) :
    (∃ post0, st.trace = pre ++ .sendTransaction tx :: post0) ∨
    (∃ j rc, xs[j]? = some rc ∧ intent rt rc = some tx ∧
      (pushes pre).length = (pushes st.trace).length + j ∧
      sends pre = sends st.trace ++ (xs.take j).filterMap (intent rt)) := by
  induction xs generalizing i st with
  | nil => exact Or.inl ⟨post, by simpa [loop] using h⟩
  | cons x t ih =>
    obtain ⟨c, r, item, hbody, -, -, hpush, hshape⟩ := loopBody_spec rt w len i x st
    have htrace : (loopBody rt w len i x st).trace = st.trace ++ item := by rw [hbody]
    have hhead : ∀ post0, item = .sendTransaction tx :: post0 → pre = st.trace →
        ∃ j rc, (x :: t)[j]? = some rc ∧ intent rt rc = some tx ∧
          (pushes pre).length = (pushes st.trace).length + j ∧
          sends pre = sends st.trace ++ ((x :: t).take j).filterMap (intent rt) := by
      intro post0 hitem hpre
      have := item_send_head rt x r item [] post0 tx hshape (by simpa using hitem)
      exact ⟨0, x, by simp, this.2, by simp [hpre], by simp [hpre]⟩
    rcases ih (i + 1) (loopBody rt w len i x st) (by simpa [loop] using h) with
      ⟨post0, hA⟩ | ⟨j, rc, hj, hint, hp, hs⟩
    · rw [htrace] at hA
      rcases List.append_eq_append_iff.mp hA with ⟨a, hpre, hitem⟩ | ⟨c2, hst, hitem⟩
      · have := item_send_head rt x r item a post0 tx hshape hitem
        rw [this.1] at hpre hitem
        exact Or.inr (hhead post0 (by simpa using hitem) (by simpa using hpre))
      · cases c2 with
        | nil => exact Or.inr (hhead post0 (by simpa using hitem.symm) (by simpa using hst.symm))
        | cons e c3 =>
          simp only [List.cons_append, List.cons.injEq] at hitem
          exact Or.inl ⟨c3, by rw [hst, hitem.1]⟩
    · refine Or.inr ⟨j + 1, rc, by simpa using hj, hint, ?_, ?_⟩
      · rw [hp, htrace, pushes_append, hpush]; simp; omega
      · rw [hs, htrace, sends_append, sends_item rt x r item hshape]
        cases hx : intent rt x <;> simp [List.filterMap_cons, hx]

/-- The submissions of a whole run are the intents of the recipients, in input order. -/
theorem sends_batchTransfer {σ η ν : Type} (rt : Runtime ν) (w : Provider σ η)
    (recipients : List (Recipient ν)) (chain : σ) :
    sends (batchTransfer rt w recipients chain).trace = recipients.filterMap (intent rt) := by
  obtain ⟨X, T, -, htr, -, -, hs⟩ := loop_spec rt w recipients.length recipients 0
    { chain := chain, results := [], trace := [] }
  have htr2 : (batchTransfer rt w recipients chain).trace = T := by
    simpa [batchTransfer] using htr
  rw [htr2, hs]

/-- The delay of one iteration: it is awaited exactly when the iteration records a result other
than 'Error' and is not the last one. -/
theorem loopBody_delays {σ η ν : Type} (rt : Runtime ν) (w : Provider σ η) (len i : Nat)
    (rc : Recipient ν) (st : BatchState σ ν) :
    ∃ c r item, loopBody rt w len i rc st =
        { chain := c, results := st.results ++ [r], trace := st.trace ++ item } ∧
      delays item = if r.status ≠ "Error" ∧ (i : Int) < (len : Int) - 1 then 1 else 0 := by
  unfold loopBody tryBlock catchBlock
  cases hconv : rt.parseEther (rt.numberToString rc.amount) with
  | error e =>
    exact ⟨st.chain, ⟨rc.address, rc.amount, "N/A", "Error", none, some e⟩,
      [.push ⟨rc.address, rc.amount, "N/A", "Error", none, some e⟩], rfl, by simp [delays]⟩
  | ok value =>
    simp only []
    rcases hsend : w.sendTransaction st.chain
      { to_ := rc.address, value := value, gasLimit := 21000 } with ⟨c1, e | txResponse⟩
    · refine ⟨c1, ⟨rc.address, rc.amount, "N/A", "Error", none, some e⟩,
        [.sendTransaction { to_ := rc.address, value := value, gasLimit := 21000 }, .push ⟨rc.address, rc.amount, "N/A", "Error", none, some e⟩], ?_,
        by simp [delays]⟩
      simp
    · simp only []
      rcases hwait : w.wait c1 txResponse with ⟨c2, e | receipt⟩
      · refine ⟨c2, ⟨rc.address, rc.amount, "N/A", "Error", none, some e⟩,
          [.sendTransaction { to_ := rc.address, value := value, gasLimit := 21000 }, .wait,
            .push ⟨rc.address, rc.amount, "N/A", "Error", none, some e⟩], ?_, by simp [delays]⟩
        simp
      · simp only []
        by_cases hlast : (i : Int) < (len : Int) - 1
        · rw [if_pos hlast]
          refine ⟨c2, ⟨rc.address, rc.amount, receipt.hash,
            if receipt.status = 1 then "Success" else "Failed", some (toString receipt.gasUsed),
            none⟩, [.sendTransaction { to_ := rc.address, value := value, gasLimit := 21000 }, .wait,
            .push ⟨rc.address, rc.amount, receipt.hash,
            if receipt.status = 1 then "Success" else "Failed", some (toString receipt.gasUsed),
            none⟩, .delay 2000], ?_, ?_⟩
          · simp
          · by_cases h1 : receipt.status = 1 <;> simp [delays, hlast, h1]
        · rw [if_neg hlast]
          refine ⟨c2, ⟨rc.address, rc.amount, receipt.hash,
            if receipt.status = 1 then "Success" else "Failed", some (toString receipt.gasUsed),
            none⟩, [.sendTransaction { to_ := rc.address, value := value, gasLimit := 21000 }, .wait,
            .push ⟨rc.address, rc.amount, receipt.hash,
            if receipt.status = 1 then "Success" else "Failed", some (toString receipt.gasUsed),
            none⟩], ?_, ?_⟩
          · simp
          · by_cases h1 : receipt.status = 1 <;> simp [delays, hlast, h1]

/-- The delays of the loop: one for every recorded result other than 'Error', the last result
excepted. -/
theorem loop_delays {σ η ν : Type} (rt : Runtime ν) (w : Provider σ η) (len : Nat)
    (xs : List (Recipient ν)) (i : Nat) (st : BatchState σ ν) (hlen : i + xs.length = len) :
    ∃ X T, (loop rt w len i xs st).results = st.results ++ X ∧
      (loop rt w len i xs st).trace = st.trace ++ T ∧ X.length = xs.length ∧
      delays T = (X.dropLast.filter (fun r => r.status != "Error")).length := by
  induction xs generalizing i st with
  | nil => exact ⟨[], [], by simp [loop], by simp [loop], rfl, rfl⟩
  | cons x t ih =>
    obtain ⟨c, r, item, hbody, hdel⟩ := loopBody_delays rt w len i x st
    obtain ⟨X, T, hres, htr, hX, hT⟩ := ih (i + 1) (loopBody rt w len i x st)
      (by simp only [List.length_cons] at hlen; omega)
    refine ⟨r :: X, item ++ T, ?_, ?_, by simp [hX], ?_⟩
    · rw [loop, hres, hbody]; simp
    · rw [loop, htr, hbody]; simp
    · rw [delays_append, hdel, hT]
      cases X with
      | nil =>
        have ht : t.length = 0 := by simpa using hX.symm
        have hi : ¬ ((i : Int) < (len : Int) - 1) := by
          simp only [List.length_cons, ht] at hlen; omega
        rw [if_neg (fun h => hi h.2)]
        rfl
      | cons y Y =>
        have ht : t.length = Y.length + 1 := by simpa using hX.symm
        have hi : (i : Int) < (len : Int) - 1 := by
          simp only [List.length_cons, ht] at hlen; omega
        rw [List.dropLast_cons₂, List.filter_cons]
        by_cases hr : r.status = "Error"
        · simp [hr]
        · simp [hr, hi]; omega

/-- The delays of a whole run: `batchTransfer` awaits one delay for every result whose status is
not 'Error', the last result excepted. -/
theorem delays_batchTransfer {σ η ν : Type} (rt : Runtime ν) (w : Provider σ η)
    (recipients : List (Recipient ν)) (chain : σ) :
    delays (batchTransfer rt w recipients chain).trace =
      ((batchTransfer rt w recipients chain).results.dropLast.filter
        (fun r => r.status != "Error")).length := by
  obtain ⟨X, T, hres, htr, -, hT⟩ := loop_delays rt w recipients.length recipients 0
    { chain := chain, results := [], trace := [] } (by simp)
  have hres2 : (batchTransfer rt w recipients chain).results = X := by
    simpa [batchTransfer] using hres
  have htr2 : (batchTransfer rt w recipients chain).trace = T := by
    simpa [batchTransfer] using htr
  rw [hres2, htr2, hT]

/-- The trace of `initialize()` is the key prompt alone. -/
theorem init_trace {σ η ν : Type} (rt : Runtime ν) (w : Provider σ η) (privateKey : String)
    (chain : σ) :
    (init rt w privateKey chain : σ × List (Event ν) × Except String Nat).2.1 =
      [.question "Enter sender private key: "] := by
  unfold init
  simp only []
  split
  · rfl
  · split <;> rfl

/-- The shape of a batch run: stopped by a failing `initialize()`, cancelled at the prompt, or
handed to `batchTransfer`. -/
theorem batch_run_cases {σ η ν : Type} [OfScientific ν] (rt : Runtime ν) (w : Provider σ η)
    (privateKey confirm : String) (chain : σ) :
    (∃ c, run rt w privateKey confirm chain =
      { chain := c, trace := [.question "Enter sender private key: "], results := none,
        summary := none, exitCode := 0 }) ∨
    (∃ c, (rt.toLowerCase confirm ≠ "yes" ∧ rt.toLowerCase confirm ≠ "y") ∧
      run rt w privateKey confirm chain =
      { chain := c
        trace := [.question "Enter sender private key: ",
          .question "\nProceed with batch transfer? (yes/no): "]
        results := none, summary := none, exitCode := 0 }) ∨
    (∃ c, (rt.toLowerCase confirm = "yes" ∨ rt.toLowerCase confirm = "y") ∧
      run rt w privateKey confirm chain =
      { chain := (batchTransfer rt w recipients c).chain
        trace := [.question "Enter sender private key: ",
          .question "\nProceed with batch transfer? (yes/no): "] ++
          (batchTransfer rt w recipients c).trace
        results := some (batchTransfer rt w recipients c).results
        summary := some (printSummary (batchTransfer rt w recipients c).results)
        exitCode := 0 }) := by
  unfold run
  have ht := init_trace (ν := ν) rt w privateKey chain
  rcases h : (init rt w privateKey chain : σ × List (Event ν) × Except String Nat) with
    ⟨c, trace, e | balance⟩
  · rw [h] at ht
    simp only [] at ht ⊢
    subst ht
    exact Or.inl ⟨c, rfl⟩
  · rw [h] at ht
    simp only [] at ht ⊢
    subst ht
    by_cases hno : rt.toLowerCase confirm ≠ "yes" ∧ rt.toLowerCase confirm ≠ "y"
    · rw [if_pos hno]
      exact Or.inr (Or.inl ⟨c, hno, rfl⟩)
    · rw [if_neg hno]
      refine Or.inr (Or.inr ⟨c, ?_, rfl⟩)
      by_cases hy : rt.toLowerCase confirm = "yes"
      · exact Or.inl hy
      · exact Or.inr (by_contra fun hy2 => hno ⟨hy, hy2⟩)

end BatchTAOTransfer

/-! ## Lemmas on the single-transfer run -/

namespace TAOTransfer

theorem quiet_nil {ν : Type} : Quiet ([] : List (Event ν)) := ⟨rfl, by simp⟩

theorem init_quiet {σ η ν : Type} (w : Provider σ η) (st : RunState σ ν)
    (h : Quiet st.trace) : Quiet (init w st).1.trace := by
  unfold init
  split <;> exact h

theorem getWalletInfo_quiet {σ ν : Type} (rt : Runtime ν) (privateKey : String)
    (st : RunState σ ν) (h : Quiet st.trace) :
    Quiet (getWalletInfo rt privateKey st).1.trace := by
  have hq : Quiet (st.trace ++
      [Event.question "Enter sender private key (without 0x prefix): "]) := by
    refine ⟨by rw [sends_append, h.1]; rfl, ?_⟩
    simp only [List.mem_append, List.mem_singleton, Event.question.injEq, not_or]
    exact ⟨h.2, by decide⟩
  unfold getWalletInfo
  split
  · exact hq
  · split <;> exact hq

theorem checkBalance_quiet {σ η ν : Type} (w : Provider σ η) (address : String)
    (st : RunState σ ν) (h : Quiet st.trace) : Quiet (checkBalance w address st).1.trace := by
  unfold checkBalance
  split <;> exact h

theorem getTransferDetails_quiet {σ ν : Type} (rt : Runtime ν)
    (receiverAddress amountInput : String) (st : RunState σ ν) (h : Quiet st.trace) :
    Quiet (getTransferDetails rt receiverAddress amountInput st).1.trace := by
  have hq1 : Quiet (st.trace ++ [Event.question "Enter receiver address: "]) := by
    refine ⟨by rw [sends_append, h.1]; rfl, ?_⟩
    simp only [List.mem_append, List.mem_singleton, Event.question.injEq, not_or]
    exact ⟨h.2, by decide⟩
  have hq2 : Quiet (st.trace ++ [Event.question "Enter receiver address: "] ++
      [Event.question "Enter amount to transfer (in TAO): "]) := by
    refine ⟨by rw [sends_append, hq1.1]; rfl, ?_⟩
    simp only [List.mem_append, List.mem_singleton, Event.question.injEq, not_or]
    exact ⟨⟨h.2, by decide⟩, by decide⟩
  unfold getTransferDetails
  simp only []
  split
  · exact hq1
  · split
    · exact hq2
    · split <;> exact hq2

theorem estimateGas_quiet {σ η ν : Type} (w : Provider σ η) (address receiverAddress : String)
    (amountWei : Nat) (st : RunState σ ν) (h : Quiet st.trace) :
    Quiet (estimateGas w address receiverAddress amountWei st).1.trace := by
  unfold estimateGas
  split
  · exact h
  · split <;> exact h

/-- The exit code and the trace of a halted run. -/
theorem halted_trace {σ ν : Type} (st : RunState σ ν) (h : Halt) :
    (halted st h).trace = st.trace ∧ (halted st h).receipt = none := by
  cases h <;> exact ⟨rfl, rfl⟩

theorem halted_fatal {σ ν : Type} (st : RunState σ ν) (h : Halt) (hf : Fatal h) :
    (halted st h : RunOutcome σ ν).exitCode = 1 := by
  rcases hf with rfl | ⟨m, rfl⟩ <;> rfl

theorem init_fatal {σ η ν : Type} (w : Provider σ η) (st : RunState σ ν) (h : Halt)
    (hh : (init w st).2 = .error h) : Fatal h := by
  unfold init at hh
  split at hh
  · cases hh
  · exact Or.inl (Except.error.inj hh).symm

theorem getWalletInfo_fatal {σ ν : Type} (rt : Runtime ν) (privateKey : String)
    (st : RunState σ ν) (h : Halt) (hh : (getWalletInfo rt privateKey st).2 = .error h) :
    Fatal h := by
  unfold getWalletInfo at hh
  simp only [] at hh
  split at hh
  · exact Or.inr ⟨_, (Except.error.inj hh).symm⟩
  · split at hh
    · cases hh
    · exact Or.inr ⟨_, (Except.error.inj hh).symm⟩

theorem checkBalance_fatal {σ η ν : Type} (w : Provider σ η) (address : String)
    (st : RunState σ ν) (h : Halt) (hh : (checkBalance w address st).2 = .error h) :
    Fatal h := by
  unfold checkBalance at hh
  split at hh
  · cases hh
  · exact Or.inr ⟨_, (Except.error.inj hh).symm⟩

theorem getTransferDetails_fatal {σ ν : Type} (rt : Runtime ν)
    (receiverAddress amountInput : String) (st : RunState σ ν) (h : Halt)
    (hh : (getTransferDetails rt receiverAddress amountInput st).2 = .error h) : Fatal h := by
  unfold getTransferDetails at hh
  simp only [] at hh
  split at hh
  · exact Or.inr ⟨_, (Except.error.inj hh).symm⟩
  · split at hh
    · exact Or.inr ⟨_, (Except.error.inj hh).symm⟩
    · split at hh
      · exact Or.inr ⟨_, (Except.error.inj hh).symm⟩
      · cases hh

theorem getTransferDetails_receiver {σ ν : Type} (rt : Runtime ν)
    (receiverAddress amountInput : String) (st st4 : RunState σ ν) (details : TransferDetails ν)
    (hh : getTransferDetails rt receiverAddress amountInput st = (st4, .ok details)) :
    details.receiverAddress = receiverAddress := by
  unfold getTransferDetails at hh
  simp only [] at hh
  split at hh
  · cases hh
  · split at hh
    · cases hh
    · split at hh
      · cases hh
      · cases hh; rfl

theorem estimateGas_fatal {σ η ν : Type} (w : Provider σ η) (address receiverAddress : String)
    (amountWei : Nat) (st : RunState σ ν) (h : Halt)
    (hh : (estimateGas w address receiverAddress amountWei st).2 = .error h) : Fatal h := by
  unfold estimateGas at hh
  split at hh
  · exact Or.inr ⟨_, (Except.error.inj hh).symm⟩
  · split at hh
    · exact Or.inr ⟨_, (Except.error.inj hh).symm⟩
    · exact Or.inr ⟨_, (Except.error.inj hh).symm⟩
    · cases hh

/-- What `performTransfer` adds to the trace: one submission, then at most a wait. -/
theorem performTransfer_spec {σ η ν : Type} (w : Provider σ η) (receiverAddress : String)
    (amountWei : Nat) (st : RunState σ ν) :
    sends (performTransfer w receiverAddress amountWei st).1.trace =
        sends st.trace ++ [{ to_ := receiverAddress, value := amountWei, gasLimit := 21000 }] ∧
      (∀ h, (performTransfer w receiverAddress amountWei st).2 = .error h → ∃ m, h = .thrown m) := by
  unfold performTransfer
  simp only []
  split
  · exact ⟨by simp [sends_append, sends], fun h hh => ⟨_, (Except.error.inj hh).symm⟩⟩
  · split
    · exact ⟨by simp [sends_append, sends], fun h hh => ⟨_, (Except.error.inj hh).symm⟩⟩
    · exact ⟨by simp [sends_append, sends], fun h hh => by cases hh⟩

/-- The trace `performTransfer` returns extends the trace it was given. -/
theorem performTransfer_trace {σ η ν : Type} (w : Provider σ η) (receiverAddress : String)
    (amountWei : Nat) (st : RunState σ ν) :
    ∃ tail, (performTransfer w receiverAddress amountWei st).1.trace = st.trace ++ tail := by
  unfold performTransfer
  simp only []
  split
  · exact ⟨_, rfl⟩
  · split <;> exact ⟨_, rfl⟩

/-- The two ways a run goes: it halts before the confirmation prompt, with nothing submitted, or
it reaches the prompt with an untouched trace and then either stops on a negative answer or
calls `performTransfer`. -/
theorem run_cases {σ η ν : Type} (rt : Runtime ν) (w : Provider σ η) (inp : Inputs) (chain : σ) :
    (∃ (st : RunState σ ν) (h : Halt), Quiet st.trace ∧ Fatal h ∧
      run rt w inp chain = halted st h) ∨
    (∃ (st : RunState σ ν) (details : TransferDetails ν), Quiet st.trace ∧
      details.receiverAddress = inp.receiverAddress ∧
      run rt w inp chain =
        if rt.toLowerCase inp.confirm ≠ "yes" ∧ rt.toLowerCase inp.confirm ≠ "y" then
          { chain := st.chain
            trace := st.trace ++ [.question "\nConfirm transfer? (yes/no): "]
            receipt := none
            exitCode := 0 }
        else
          match performTransfer w details.receiverAddress details.amountWei
            { chain := st.chain
              trace := st.trace ++ [.question "\nConfirm transfer? (yes/no): "] } with
          | (st2, .error h) => halted st2 h
          | (st2, .ok receipt) =>
            { chain := st2.chain, trace := st2.trace, receipt := some receipt, exitCode := 0 }) := by
  unfold run
  have q0 : Quiet ({ chain := chain, trace := [] } : RunState σ ν).trace := quiet_nil
  have q1 := init_quiet w _ q0
  have f1 := init_fatal w ({ chain := chain, trace := [] } : RunState σ ν)
  rcases h1 : init w ({ chain := chain, trace := [] } : RunState σ ν) with ⟨st1, h | u⟩
  · rw [h1] at q1 f1
    exact Or.inl ⟨st1, h, q1, f1 h rfl, rfl⟩
  rw [h1] at q1
  simp only []
  have q2 := getWalletInfo_quiet rt inp.privateKey st1 q1
  have f2 := getWalletInfo_fatal rt inp.privateKey st1
  rcases h2 : getWalletInfo rt inp.privateKey st1 with ⟨st2, h | address⟩
  · rw [h2] at q2 f2
    exact Or.inl ⟨st2, h, q2, f2 h rfl, rfl⟩
  rw [h2] at q2
  simp only []
  have q3 := checkBalance_quiet w address st2 q2
  have f3 := checkBalance_fatal w address st2
  rcases h3 : checkBalance w address st2 with ⟨st3, h | balance⟩
  · rw [h3] at q3 f3
    exact Or.inl ⟨st3, h, q3, f3 h rfl, rfl⟩
  rw [h3] at q3
  simp only []
  have q4 := getTransferDetails_quiet rt inp.receiverAddress inp.amountInput st3 q3
  have f4 := getTransferDetails_fatal rt inp.receiverAddress inp.amountInput st3
  rcases h4 : getTransferDetails rt inp.receiverAddress inp.amountInput st3 with
    ⟨st4, h | details⟩
  · rw [h4] at q4 f4
    exact Or.inl ⟨st4, h, q4, f4 h rfl, rfl⟩
  rw [h4] at q4
  simp only []
  by_cases hb : balance < details.amountWei
  · rw [if_pos hb]
    exact Or.inl ⟨st4, _, q4, Or.inr ⟨_, rfl⟩, rfl⟩
  rw [if_neg hb]
  have q5 := estimateGas_quiet w address details.receiverAddress details.amountWei st4 q4
  have f5 := estimateGas_fatal w address details.receiverAddress details.amountWei st4
  rcases h5 : estimateGas w address details.receiverAddress details.amountWei st4 with
    ⟨st5, h | gas⟩
  · rw [h5] at q5 f5
    exact Or.inl ⟨st5, h, q5, f5 h rfl, rfl⟩
  rw [h5] at q5
  simp only []
  by_cases hf : balance < details.amountWei + gas.estimatedFee
  · rw [if_pos hf]
    exact Or.inl ⟨st5, _, q5, Or.inr ⟨_, rfl⟩, rfl⟩
  rw [if_neg hf]
  exact Or.inr ⟨st5, details, q5, getTransferDetails_receiver rt _ _ st3 st4 details h4, rfl⟩

/-- The exit code of the single-transfer run is 0 exactly when the run reached the confirmation
prompt and was then either cancelled or completed with a receipt; otherwise it is 1. -/
theorem run_exitCode {σ η ν : Type} (rt : Runtime ν) (w : Provider σ η) (inp : Inputs)
    (chain : σ) :
    ((run rt w inp chain).exitCode = 0 ↔
      Event.question "\nConfirm transfer? (yes/no): " ∈ (run rt w inp chain).trace ∧
        ((rt.toLowerCase inp.confirm ≠ "yes" ∧ rt.toLowerCase inp.confirm ≠ "y") ∨
          (run rt w inp chain).receipt ≠ none)) ∧
    ((run rt w inp chain).exitCode = 0 ∨ (run rt w inp chain).exitCode = 1) := by
  rcases run_cases rt w inp chain with ⟨st, h, hq, hf, hrun⟩ | ⟨st, details, hq, -, hrun⟩
  · have hexit := halted_fatal (ν := ν) st h hf
    rw [hrun]
    refine ⟨⟨fun h0 => ?_, fun hr => ?_⟩, Or.inr hexit⟩
    · rw [hexit] at h0; cases h0
    · rw [(halted_trace st h).1] at hr
      exact absurd hr.1 hq.2
  · by_cases hno : rt.toLowerCase inp.confirm ≠ "yes" ∧ rt.toLowerCase inp.confirm ≠ "y"
    · rw [hrun, if_pos hno]
      exact ⟨⟨fun _ => ⟨by simp, Or.inl hno⟩, fun _ => rfl⟩, Or.inl rfl⟩
    · rw [hrun, if_neg hno]
      obtain ⟨tail, htail⟩ := performTransfer_trace w details.receiverAddress details.amountWei
        ({ chain := st.chain
           trace := st.trace ++ [.question "\nConfirm transfer? (yes/no): "] } : RunState σ ν)
      have hperfF := (performTransfer_spec w details.receiverAddress details.amountWei
        ({ chain := st.chain
           trace := st.trace ++ [.question "\nConfirm transfer? (yes/no): "] } :
          RunState σ ν)).2
      rcases hperf : performTransfer w details.receiverAddress details.amountWei
        ({ chain := st.chain
           trace := st.trace ++ [.question "\nConfirm transfer? (yes/no): "] } : RunState σ ν)
        with ⟨st2, h | receipt⟩
      · rw [hperf] at hperfF
        have hexit := halted_fatal (ν := ν) st2 h (Or.inr (hperfF h rfl))
        simp only []
        refine ⟨⟨fun h0 => ?_, fun hr => ?_⟩, Or.inr hexit⟩
        · rw [hexit] at h0; cases h0
        · rcases hr.2 with hn | hrec
          · exact absurd hn hno
          · exact absurd (halted_trace st2 h).2 hrec
      · rw [hperf] at htail
        simp only [] at htail
        refine ⟨⟨fun _ => ⟨?_, Or.inr (by simp)⟩, fun _ => by simp⟩, Or.inl (by simp)⟩
        show Event.question "\nConfirm transfer? (yes/no): " ∈ st2.trace
        rw [htail]
        simp

end TAOTransfer

/-! ## Theorems on `batchTransfer` and `printSummary` -/

namespace BatchTAOTransfer

/-- C1: for every recipient list (the empty one included) and every runtime and node behaviour,
`batchTransfer` returns exactly `recipients.length` results, and at every index the result
carries the address and the amount of the recipient at that index. -/
theorem batchTransfer_results_positional {σ η ν : Type} (rt : Runtime ν) (w : Provider σ η)
    (recipients : List (Recipient ν)) (chain : σ) :
    (batchTransfer rt w recipients chain).results.length = recipients.length ∧
    ∀ i : Nat,
      ((batchTransfer rt w recipients chain).results[i]?).map (fun r => (r.recipient, r.amount)) =
        (recipients[i]?).map (fun rc => (rc.address, rc.amount)) := by
  obtain ⟨X, T, hres, -, hmap, -, -⟩ := loop_spec rt w recipients.length recipients 0
    { chain := chain, results := [], trace := [] }
  have hres2 : (batchTransfer rt w recipients chain).results = X := by
    simpa [batchTransfer] using hres
  refine ⟨?_, fun i => ?_⟩
  · rw [hres2]; simpa using congrArg List.length hmap
  · rw [hres2, ← List.getElem?_map, ← List.getElem?_map, hmap]

/-- C2: when, for the item at index `i`, the amount converts, `sendTransaction` returns a
response and `wait()` returns a receipt, the result at index `i` has the hash of the receipt,
the decimal text of its `gasUsed`, and a status that is 'Success' exactly when the receipt
status is 1 and 'Failed' (never 'Error') otherwise. -/
theorem batchTransfer_receipt_outcome {σ η ν : Type} (rt : Runtime ν) (w : Provider σ η)
    (recipients : List (Recipient ν)) (chain : σ) (i : Nat) (rc : Recipient ν) (value : Nat)
    (s1 s2 : σ) (txResponse : η) (receipt : Receipt)
    (hrc : recipients[i]? = some rc)
    (hconv : rt.parseEther (rt.numberToString rc.amount) = .ok value)
    (hsend : w.sendTransaction (chainBefore rt w recipients chain i)
      { to_ := rc.address, value := value, gasLimit := 21000 } = (s1, .ok txResponse))
    (hwait : w.wait s1 txResponse = (s2, .ok receipt)) :
    ∃ r, (batchTransfer rt w recipients chain).results[i]? = some r ∧
      r.hash = receipt.hash ∧ r.gasUsed = some (toString receipt.gasUsed) ∧
      (r.status = "Success" ↔ receipt.status = 1) ∧
      (receipt.status ≠ 1 → r.status = "Failed") ∧ r.status ≠ "Error" := by
  refine ⟨{ recipient := rc.address, amount := rc.amount, hash := receipt.hash,
            status := if receipt.status = 1 then "Success" else "Failed",
            gasUsed := some (toString receipt.gasUsed), error := none }, ?_, rfl, rfl, ?_, ?_, ?_⟩
  · apply batchTransfer_result_at rt w recipients chain i rc hrc
    intro st hst
    rw [← hst] at hsend
    unfold loopBody tryBlock
    simp only [hconv, hsend, hwait]
    by_cases hlast : (i : Int) < (recipients.length : Int) - 1 <;> simp [hlast]
  · by_cases h : receipt.status = 1 <;> simp [h]
  · intro h; simp [h]
  · by_cases h : receipt.status = 1 <;> simp [h]

/-- C2, on a concrete run: the hard-coded list on a node that confirms A with receipt status 1. -/
theorem batchTransfer_receipt_outcome_witness :
    ∃ r, (batchTransfer mockRuntime (mockProvider addrB 1 0)
        [⟨addrA, 0.1⟩, ⟨addrB, 0.2⟩, ⟨addrC, 0.15⟩] 0).results[0]? = some r ∧
      r.hash = "0xh0" ∧ r.gasUsed = some "21000" ∧
      (r.status = "Success" ↔ 1 = 1) ∧ ((1 : Nat) ≠ 1 → r.status = "Failed") ∧
      r.status ≠ "Error" :=
  batchTransfer_receipt_outcome mockRuntime (mockProvider addrB 1 0)
    [⟨addrA, 0.1⟩, ⟨addrB, 0.2⟩, ⟨addrC, 0.15⟩] 0 0 ⟨addrA, 0.1⟩ 100000000000000000 1 1 0
    { hash := "0xh0", status := 1, gasUsed := 21000, blockNumber := 7, gasPrice := 10 }
    (by decide) rfl rfl rfl

/-- C3 as stated fails: on a node whose `sendTransaction` throws "insufficient funds" for B, the
result recorded for B has the hash 'N/A', which is not the text "not available". -/
theorem batchTransfer_error_hash_counterexample :
    (∃ s1, (mockProvider addrB 1 0).sendTransaction
        (chainBefore mockRuntime (mockProvider addrB 1 0)
          [⟨addrA, 0.1⟩, ⟨addrB, 0.2⟩, ⟨addrC, 0.15⟩] 0 1)
        { to_ := addrB, value := 200000000000000000, gasLimit := 21000 } =
          (s1, .error "insufficient funds")) ∧
    ¬ (((batchTransfer mockRuntime (mockProvider addrB 1 0)
        [⟨addrA, 0.1⟩, ⟨addrB, 0.2⟩, ⟨addrC, 0.15⟩] 0).results[1]?).map (fun r => r.hash) =
      some "not available") :=
  ⟨⟨2, rfl⟩, by decide⟩

/-- C3, amended: when `sendTransaction` throws for the item at index `i`, the result at index
`i` has status 'Error', hash 'N/A', no `gasUsed`, and as `error` the message of the thrown error
(so a non-empty one whenever that message is non-empty). -/
theorem batchTransfer_send_error_outcome {σ η ν : Type} (rt : Runtime ν) (w : Provider σ η)
    (recipients : List (Recipient ν)) (chain : σ) (i : Nat) (rc : Recipient ν) (value : Nat)
    (s1 : σ) (message : String)
    (hrc : recipients[i]? = some rc)
    (hconv : rt.parseEther (rt.numberToString rc.amount) = .ok value)
    (hsend : w.sendTransaction (chainBefore rt w recipients chain i)
      { to_ := rc.address, value := value, gasLimit := 21000 } = (s1, .error message)) :
    (batchTransfer rt w recipients chain).results[i]? =
        some { recipient := rc.address, amount := rc.amount, hash := "N/A", status := "Error",
               gasUsed := none, error := some message } ∧
      (message ≠ "" →
        ∃ r m, (batchTransfer rt w recipients chain).results[i]? = some r ∧
          r.error = some m ∧ m ≠ "") := by
  have hres : (batchTransfer rt w recipients chain).results[i]? =
      some { recipient := rc.address, amount := rc.amount, hash := "N/A", status := "Error",
             gasUsed := none, error := some message } := by
    apply batchTransfer_result_at rt w recipients chain i rc hrc
    intro st hst
    rw [← hst] at hsend
    unfold loopBody tryBlock catchBlock
    simp only [hconv, hsend]
  exact ⟨hres, fun hne => ⟨_, message, hres, rfl, hne⟩⟩

/-- C3 amended, on a concrete run: B is rejected with "insufficient funds". -/
theorem batchTransfer_send_error_outcome_witness :
    (batchTransfer mockRuntime (mockProvider addrB 1 0)
        [⟨addrA, 0.1⟩, ⟨addrB, 0.2⟩, ⟨addrC, 0.15⟩] 0).results[1]? =
        some { recipient := addrB, amount := 0.2, hash := "N/A", status := "Error",
               gasUsed := none, error := some "insufficient funds" } ∧
      ("insufficient funds" ≠ "" →
        ∃ r m, (batchTransfer mockRuntime (mockProvider addrB 1 0)
            [⟨addrA, 0.1⟩, ⟨addrB, 0.2⟩, ⟨addrC, 0.15⟩] 0).results[1]? = some r ∧
          r.error = some m ∧ m ≠ "") :=
  batchTransfer_send_error_outcome mockRuntime (mockProvider addrB 1 0)
    [⟨addrA, 0.1⟩, ⟨addrB, 0.2⟩, ⟨addrC, 0.15⟩] 0 1 ⟨addrB, 0.2⟩ 200000000000000000 2
    "insufficient funds" (by decide) rfl rfl

/-- C4: a failure never stops the loop.  For every recipient list, runtime and node,
`batchTransfer` returns a result for every recipient, and for every index `k` in range: the
result at `k` is the one the loop body computes for that recipient alone
from the node state reached when the loop arrives at `k`, whatever happened to earlier items,
and if its amount converts its transaction is submitted.  In particular, for the three requests
A, B, C on a node that rejects only B with "insufficient funds", the outcomes are Success, Error
with that message, Success, and the summary counts 2 successful, 1 failed, 3 in total. -/
theorem batchTransfer_failure_isolation {σ η ν : Type} (rt : Runtime ν) (w : Provider σ η)
    (recipients : List (Recipient ν)) (chain : σ) (k : Nat) (rc : Recipient ν)
    (hrc : recipients[k]? = some rc) :
    ((batchTransfer rt w recipients chain).results.length = recipients.length ∧
      (batchTransfer rt w recipients chain).results[k]? =
        (loopBody rt w recipients.length k rc
          { chain := chainBefore rt w recipients chain k, results := [], trace := [] }).results.head?
      ∧ ∀ tx, intent rt rc = some tx →
          Event.sendTransaction tx ∈ (batchTransfer rt w recipients chain).trace) ∧
    ((batchTransfer mockRuntime (mockProvider addrB 1 0)
        [⟨addrA, 0.1⟩, ⟨addrB, 0.2⟩, ⟨addrC, 0.15⟩] 0).results.map
          (fun r => (r.status, r.error)) =
        [("Success", none), ("Error", some "insufficient funds"), ("Success", none)] ∧
      printSummary (batchTransfer mockRuntime (mockProvider addrB 1 0)
        [⟨addrA, 0.1⟩, ⟨addrB, 0.2⟩, ⟨addrC, 0.15⟩] 0).results =
        { successful := 2, failed := 1, total := 3 }) := by
  refine ⟨⟨?_, ?_, ?_⟩, by decide, by decide⟩
  · have hlen := loop_results_length rt w recipients.length recipients 0
      { chain := chain, results := [], trace := [] }
    simpa [batchTransfer] using hlen
  · obtain ⟨c, r, item, hbody, -, -, -, -⟩ := loopBody_spec rt w recipients.length k rc
      { chain := chainBefore rt w recipients chain k, results := [], trace := [] }
    rw [hbody]
    apply batchTransfer_result_at rt w recipients chain k rc hrc
    intro st hst
    rw [loopBody_results_frame, hst, hbody]
    rfl
  · intro tx htx
    rw [← mem_sends, sends_batchTransfer, List.mem_filterMap]
    exact ⟨rc, List.getElem?_mem hrc, htx⟩

/-- C4, on a concrete run: A is rejected, and B, the next item, is still submitted and gets its
own result. -/
theorem batchTransfer_failure_isolation_witness :
    (batchTransfer mockRuntime (mockProvider addrA 1 0)
        [⟨addrA, (0.1 : Dec)⟩, ⟨addrB, 0.2⟩] 0).results.length = 2 ∧
    (batchTransfer mockRuntime (mockProvider addrA 1 0)
        [⟨addrA, 0.1⟩, ⟨addrB, 0.2⟩] 0).results[1]? =
      (loopBody mockRuntime (mockProvider addrA 1 0) 2 1 ⟨addrB, 0.2⟩
        { chain := chainBefore mockRuntime (mockProvider addrA 1 0)
            [⟨addrA, 0.1⟩, ⟨addrB, 0.2⟩] 0 1, results := [], trace := [] }).results.head? ∧
    Event.sendTransaction { to_ := addrB, value := 200000000000000000, gasLimit := 21000 } ∈
      (batchTransfer mockRuntime (mockProvider addrA 1 0)
        [⟨addrA, (0.1 : Dec)⟩, ⟨addrB, 0.2⟩] 0).trace :=
  ⟨(batchTransfer_failure_isolation mockRuntime (mockProvider addrA 1 0)
      [⟨addrA, 0.1⟩, ⟨addrB, 0.2⟩] 0 1 ⟨addrB, 0.2⟩ (by decide)).1.1,
   (batchTransfer_failure_isolation mockRuntime (mockProvider addrA 1 0)
      [⟨addrA, 0.1⟩, ⟨addrB, 0.2⟩] 0 1 ⟨addrB, 0.2⟩ (by decide)).1.2.1,
   (batchTransfer_failure_isolation mockRuntime (mockProvider addrA 1 0)
      [⟨addrA, 0.1⟩, ⟨addrB, 0.2⟩] 0 1 ⟨addrB, 0.2⟩ (by decide)).1.2.2 _ (by decide)⟩

/-- C5, evaluated: with two recipients of which the first is rejected by `sendTransaction`,
the run records Error then Success and awaits no delay at all, although one delay stands between
two items; on a node that accepts both, the same list gets its one delay. -/
theorem batchTransfer_error_skips_delay :
    (batchTransfer mockRuntime (mockProvider addrA 1 0)
        [⟨addrA, 0.1⟩, ⟨addrB, 0.2⟩] 0).results.map (fun r => r.status) = ["Error", "Success"] ∧
    delays (batchTransfer mockRuntime (mockProvider addrA 1 0)
        [⟨addrA, 0.1⟩, ⟨addrB, 0.2⟩] 0).trace = 0 ∧
    delays (batchTransfer mockRuntime (mockProvider addrC 1 0)
        [⟨addrA, 0.1⟩, ⟨addrB, 0.2⟩] 0).trace = 1 := by
  decide

/-- C6: for every results list the two counts of `printSummary` add up to the length of the
list; `successful` is the number of results with status 'Success', and `failed` is the number
of all others: those with status 'Failed', those with status 'Error', and any with yet another
status. -/
theorem printSummary_counts {ν : Type} (results : List (TransferResult ν)) :
    (printSummary results).successful + (printSummary results).failed = results.length ∧
    (printSummary results).total = results.length ∧
    (printSummary results).successful = results.countP (fun r => decide (r.status = "Success")) ∧
    (printSummary results).failed =
      results.countP (fun r => decide (r.status = "Failed")) +
      results.countP (fun r => decide (r.status = "Error")) +
      results.countP (fun r => decide (r.status ≠ "Success" ∧ r.status ≠ "Failed" ∧
        r.status ≠ "Error")) := by
  unfold printSummary
  refine ⟨?_, rfl, ?_, ?_⟩
  · simp only [← List.countP_eq_length_filter]
    induction results with
    | nil => rfl
    | cons r t ih =>
      by_cases h : r.status = "Success" <;> simp [List.countP_cons, h] <;> omega
  · simp only [← List.countP_eq_length_filter]
    congr 1
  · simp only [← List.countP_eq_length_filter]
    induction results with
    | nil => rfl
    | cons r t ih =>
      simp only [List.countP_cons, ih]
      by_cases h1 : r.status = "Success"
      · simp [h1]
      · by_cases h2 : r.status = "Failed"
        · simp [h2]; omega
        · by_cases h3 : r.status = "Error"
          · simp [h3]; omega
          · simp [h1, h2, h3]; omega

/-- C10: the submissions of `batchTransfer` are, in input order, the intents of the recipients
whose amount converts (so at most one per recipient, exactly one per recipient when every
conversion succeeds, and none is repeated); each has `to`, `value`, `gasLimit` = the recipient
address, the converted amount, 21000; and when the submission for the recipient at index `k`
is made, the trace so far holds the pushes of exactly the first `k` results and the
submissions of exactly the first `k` recipients. -/
theorem batchTransfer_sequential_submissions {σ η ν : Type} (rt : Runtime ν) (w : Provider σ η)
    (recipients : List (Recipient ν)) (chain : σ) :
    sends (batchTransfer rt w recipients chain).trace = recipients.filterMap (intent rt) ∧
    (sends (batchTransfer rt w recipients chain).trace).length ≤ recipients.length ∧
    ((∀ rc ∈ recipients, intent rt rc ≠ none) →
      (sends (batchTransfer rt w recipients chain).trace).length = recipients.length) ∧
    (∀ pre tx post,
      (batchTransfer rt w recipients chain).trace = pre ++ Event.sendTransaction tx :: post →
      ∃ k rc value, recipients[k]? = some rc ∧
        rt.parseEther (rt.numberToString rc.amount) = .ok value ∧
        tx = { to_ := rc.address, value := value, gasLimit := 21000 } ∧
        pushes pre = (batchTransfer rt w recipients chain).results.take k ∧
        (pushes pre).length = k ∧
        sends pre = (recipients.take k).filterMap (intent rt)) := by
  obtain ⟨X, T, hres, htr, -, hp, hs⟩ := loop_spec rt w recipients.length recipients 0
    { chain := chain, results := [], trace := [] }
  have hres2 : (batchTransfer rt w recipients chain).results = X := by
    simpa [batchTransfer] using hres
  have htr2 : (batchTransfer rt w recipients chain).trace = T := by
    simpa [batchTransfer] using htr
  have hsends := sends_batchTransfer rt w recipients chain
  refine ⟨hsends, ?_, ?_, ?_⟩
  · rw [hsends]; exact List.length_filterMap_le _ _
  · intro hall
    rw [hsends]
    clear hsends hs htr2 hres2 htr hres hp
    induction recipients with
    | nil => rfl
    | cons x t ih =>
      have hx : intent rt x ≠ none := hall x (List.mem_cons_self _ _)
      obtain ⟨tx, htx⟩ := Option.ne_none_iff_exists'.mp hx
      rw [List.filterMap_cons, htx, List.length_cons, List.length_cons,
        ih (fun rc hrc => hall rc (List.mem_cons_of_mem _ hrc))]
  · intro pre tx post hsplit
    rcases loop_send_split rt w recipients.length recipients 0
      { chain := chain, results := [], trace := [] } pre post tx hsplit with
      ⟨post0, hnil⟩ | ⟨k, rc, hk, hint, hlen, hsnd⟩
    · simp at hnil
    · obtain ⟨value, hconv, htx⟩ := intent_eq_some rt rc tx hint
      have hlen2 : (pushes pre).length = k := by simpa [pushes] using hlen
      refine ⟨k, rc, value, hk, hconv, htx, ?_, hlen2, by simpa [sends] using hsnd⟩
      have hX : X = pushes pre ++ pushes (Event.sendTransaction tx :: post) := by
        rw [← hp, ← htr2, hsplit, pushes_append]
      rw [hres2, hX, ← hlen2, List.take_left]

/-- C10, on a concrete run: A is rejected, B is accepted; the submission for B comes after the
push of the result for A. -/
theorem batchTransfer_sequential_submissions_witness :
    ∃ k rc value, [(⟨addrA, 0.1⟩ : Recipient Dec), ⟨addrB, 0.2⟩][k]? = some rc ∧
      mockRuntime.parseEther (mockRuntime.numberToString rc.amount) = .ok value ∧
      txB = { to_ := rc.address, value := value, gasLimit := 21000 } ∧
      pushes [Event.sendTransaction txA, Event.push errorA] =
        (batchTransfer mockRuntime (mockProvider addrA 1 0)
          [⟨addrA, 0.1⟩, ⟨addrB, 0.2⟩] 0).results.take k ∧
      (pushes [Event.sendTransaction txA, Event.push errorA]).length = k ∧
      sends [Event.sendTransaction txA, Event.push errorA] =
        ([(⟨addrA, 0.1⟩ : Recipient Dec), ⟨addrB, 0.2⟩].take k).filterMap (intent mockRuntime) :=
  (batchTransfer_sequential_submissions mockRuntime (mockProvider addrA 1 0)
    [⟨addrA, 0.1⟩, ⟨addrB, 0.2⟩] 0).2.2.2 [Event.sendTransaction txA, Event.push errorA] txB
    [Event.wait, Event.push successB] (by decide)

end BatchTAOTransfer

/-! ## Theorems on the runs of the two scripts -/

namespace TAOTransfer

/-- C7: in the single-transfer run, with `balance` the balance read by `checkBalance`,
`amountWei` the converted amount, and `gasEstimate`, `gasPrice` the answers of the node to
`estimateGas` and `getFeeData`: whenever `balance < amountWei` or
`balance < amountWei + gasEstimate * gasPrice`, the run ends with exit code 1 and submits
nothing; equivalently, a run that submits a transaction has
`amountWei + gasEstimate * gasPrice <= balance`. -/
theorem run_insufficient_balance_aborts {σ η ν : Type} (rt : Runtime ν) (w : Provider σ η)
    (inp : Inputs) (chain : σ) (st1 st2 st3 st4 : RunState σ ν) (address : String)
    (balance : Nat) (details : TransferDetails ν) (c5 c6 : σ) (gasEstimate gasPrice : Nat)
    (hinit : init w { chain := chain, trace := [] } = (st1, .ok ()))
    (hwallet : getWalletInfo rt inp.privateKey st1 = (st2, .ok address))
    (hbal : checkBalance w address st2 = (st3, .ok balance))
    (hdet : getTransferDetails rt inp.receiverAddress inp.amountInput st3 = (st4, .ok details))
    (hgas : w.estimateGas st4.chain details.receiverAddress details.amountWei address =
      (c5, .ok gasEstimate))
    (hfee : w.getFeeData c5 = (c6, .ok (some gasPrice))) :
    ((balance < details.amountWei ∨ balance < details.amountWei + gasEstimate * gasPrice) →
      (run rt w inp chain).exitCode = 1 ∧ sends (run rt w inp chain).trace = [] ∧
        (run rt w inp chain).receipt = none) ∧
    (sends (run rt w inp chain).trace ≠ [] →
      details.amountWei + gasEstimate * gasPrice ≤ balance) := by
  have q1 := init_quiet w ({ chain := chain, trace := [] } : RunState σ ν) quiet_nil
  rw [hinit] at q1
  have q2 := getWalletInfo_quiet rt inp.privateKey st1 q1
  rw [hwallet] at q2
  have q3 := checkBalance_quiet w address st2 q2
  rw [hbal] at q3
  have q4 := getTransferDetails_quiet rt inp.receiverAddress inp.amountInput st3 q3
  rw [hdet] at q4
  have hgas2 : estimateGas w address details.receiverAddress details.amountWei st4 =
      ({ st4 with chain := c6 },
        .ok { gasEstimate := gasEstimate, gasPrice := gasPrice,
              estimatedFee := gasEstimate * gasPrice }) := by
    unfold estimateGas
    simp only [hgas, hfee]
  have main : (balance < details.amountWei ∨
      balance < details.amountWei + gasEstimate * gasPrice) →
      (run rt w inp chain).exitCode = 1 ∧ sends (run rt w inp chain).trace = [] ∧
        (run rt w inp chain).receipt = none := by
    intro hlow
    unfold run
    simp only [hinit, hwallet, hbal, hdet]
    by_cases hb : balance < details.amountWei
    · rw [if_pos hb]
      exact ⟨rfl, q4.1, rfl⟩
    · rw [if_neg hb]
      simp only [hgas2]
      have hf : balance < details.amountWei + gasEstimate * gasPrice := by
        rcases hlow with h | h
        · exact absurd h hb
        · exact h
      rw [if_pos hf]
      exact ⟨rfl, q4.1, rfl⟩
  refine ⟨main, fun hne => ?_⟩
  by_contra hlt
  exact hne (main (Or.inr (by omega))).2.1

/-- C7, on a concrete run: a balance of 0.1 TAO and a transfer of 0.2 TAO. -/
theorem run_insufficient_balance_aborts_witness :
    (run mockRuntime (mockProvider addrB 1 100000000000000000) (mockInputs "0.2" "yes")
        0).exitCode = 1 ∧
      sends (run mockRuntime (mockProvider addrB 1 100000000000000000) (mockInputs "0.2" "yes")
        0).trace = [] ∧
      (run mockRuntime (mockProvider addrB 1 100000000000000000) (mockInputs "0.2" "yes")
        0).receipt = none :=
  (run_insufficient_balance_aborts mockRuntime (mockProvider addrB 1 100000000000000000)
    (mockInputs "0.2" "yes") 0
    { chain := 0, trace := [] }
    { chain := 0, trace := [.question "Enter sender private key (without 0x prefix): "] }
    { chain := 0, trace := [.question "Enter sender private key (without 0x prefix): "] }
    { chain := 0, trace := [.question "Enter sender private key (without 0x prefix): ",
        .question "Enter receiver address: ", .question "Enter amount to transfer (in TAO): "] }
    "0xSender" 100000000000000000
    { receiverAddress := addrA, amount := ⟨2, 1⟩, amountWei := 200000000000000000 } 0 0 21000 10
    rfl rfl rfl rfl rfl rfl).1 (Or.inl (by decide))

end TAOTransfer

namespace BatchTAOTransfer

/-- A batch run whose `initialize()` returns and whose answer is "yes" or "y" shows the
confirmation prompt and hands the hard-coded list to `batchTransfer`. -/
theorem batch_run_confirmed {σ η ν : Type} [OfScientific ν] (rt : Runtime ν) (w : Provider σ η)
    (privateKey confirm : String) (chain c : σ) (tr : List (Event ν)) (balance : Nat)
    (hinit : init rt w privateKey chain = (c, tr, .ok balance))
    (hyes : rt.toLowerCase confirm = "yes" ∨ rt.toLowerCase confirm = "y") :
    run rt w privateKey confirm chain =
      { chain := (batchTransfer rt w recipients c).chain
        trace := tr ++ [.question "\nProceed with batch transfer? (yes/no): "] ++
          (batchTransfer rt w recipients c).trace
        results := some (batchTransfer rt w recipients c).results
        summary := some (printSummary (batchTransfer rt w recipients c).results)
        exitCode := 0 } := by
  have hno : ¬ (rt.toLowerCase confirm ≠ "yes" ∧ rt.toLowerCase confirm ≠ "y") := by
    rintro ⟨h1, h2⟩
    rcases hyes with hy | hy
    · exact h1 hy
    · exact h2 hy
  unfold run
  simp only [hinit]
  rw [if_neg hno]

end BatchTAOTransfer

namespace TAOTransfer

/-- A single-transfer run whose pre-flight steps all return, whose balance covers amount and
fee, and whose answer is "yes" or "y" shows the confirmation prompt and then submits exactly one
transaction: the amount to the receiver, with gas limit 21000. -/
theorem single_run_confirmed {σ η ν : Type} (rt : Runtime ν) (w : Provider σ η) (inp : Inputs)
    (chain : σ) (st1 st2 st3 st4 st5 : RunState σ ν) (address : String) (balance : Nat)
    (details : TransferDetails ν) (gas : GasInfo)
    (hinit : init w { chain := chain, trace := [] } = (st1, .ok ()))
    (hwallet : getWalletInfo rt inp.privateKey st1 = (st2, .ok address))
    (hbal : checkBalance w address st2 = (st3, .ok balance))
    (hdet : getTransferDetails rt inp.receiverAddress inp.amountInput st3 = (st4, .ok details))
    (hgas : estimateGas w address details.receiverAddress details.amountWei st4 =
      (st5, .ok gas))
    (hfunds : details.amountWei + gas.estimatedFee ≤ balance)
    (hyes : rt.toLowerCase inp.confirm = "yes" ∨ rt.toLowerCase inp.confirm = "y") :
    sends (run rt w inp chain).trace =
        [{ to_ := inp.receiverAddress, value := details.amountWei, gasLimit := 21000 }] ∧
      Event.question "\nConfirm transfer? (yes/no): " ∈ (run rt w inp chain).trace := by
  have hno : ¬ (rt.toLowerCase inp.confirm ≠ "yes" ∧ rt.toLowerCase inp.confirm ≠ "y") := by
    rintro ⟨h1, h2⟩
    rcases hyes with hy | hy
    · exact h1 hy
    · exact h2 hy
  have q1 := init_quiet w ({ chain := chain, trace := [] } : RunState σ ν) quiet_nil
  rw [hinit] at q1
  have q2 := getWalletInfo_quiet rt inp.privateKey st1 q1
  rw [hwallet] at q2
  have q3 := checkBalance_quiet w address st2 q2
  rw [hbal] at q3
  have q4 := getTransferDetails_quiet rt inp.receiverAddress inp.amountInput st3 q3
  rw [hdet] at q4
  have q5 := estimateGas_quiet w address details.receiverAddress details.amountWei st4 q4
  rw [hgas] at q5
  have hrecv := getTransferDetails_receiver rt _ _ st3 st4 details hdet
  have hb : ¬ balance < details.amountWei := by omega
  have hf : ¬ balance < details.amountWei + gas.estimatedFee := by omega
  have hsend0 : sends (st5.trace ++
      [(.question "\nConfirm transfer? (yes/no): " : Event ν)]) = [] := by
    rw [sends_append, q5.1]; rfl
  have hp := (performTransfer_spec w details.receiverAddress details.amountWei
    ({ chain := st5.chain
       trace := st5.trace ++ [.question "\nConfirm transfer? (yes/no): "] } : RunState σ ν)).1
  obtain ⟨tl, htl⟩ := performTransfer_trace w details.receiverAddress details.amountWei
    ({ chain := st5.chain
       trace := st5.trace ++ [.question "\nConfirm transfer? (yes/no): "] } : RunState σ ν)
  rw [hsend0] at hp
  unfold run
  simp only [hinit, hwallet, hbal, hdet, if_neg hb, hgas, if_neg hf, if_neg hno]
  rw [← hrecv]
  rcases hperf : performTransfer w details.receiverAddress details.amountWei
    ({ chain := st5.chain
       trace := st5.trace ++ [.question "\nConfirm transfer? (yes/no): "] } : RunState σ ν)
    with ⟨st6, h | receipt⟩
  · rw [hperf] at hp htl
    simp only [] at hp htl ⊢
    rw [(halted_trace st6 h).1]
    exact ⟨hp, by rw [htl]; simp⟩
  · rw [hperf] at hp htl
    simp only [] at hp htl ⊢
    exact ⟨hp, by rw [htl]; simp⟩

end TAOTransfer

/-- C8: in both scripts nothing is submitted unless the user confirms.  When the lower-cased
answer is neither "yes" nor "y", the batch run calls neither `batchTransfer` nor
`sendTransaction`, and the single-transfer run never calls `sendTransaction` and shows no
receipt.  When it is "yes" or "y", the transfer proceeds: a batch run whose `initialize()`
returned shows the prompt and hands the hard-coded list to `batchTransfer`, so every recipient
whose amount converts is submitted and the results are those of `batchTransfer`; a
single-transfer run whose pre-flight steps returned with a balance covering amount and fee
shows the prompt and calls `performTransfer`, which submits exactly one transaction, the
amount to the receiver. -/
theorem confirmation_gates_submission {σ η ν : Type} [OfScientific ν] (rt : Runtime ν)
    (w : Provider σ η) (inp : TAOTransfer.Inputs) (chain : σ) :
    ((rt.toLowerCase inp.confirm ≠ "yes" ∧ rt.toLowerCase inp.confirm ≠ "y") →
      sends (BatchTAOTransfer.run rt w inp.privateKey inp.confirm chain).trace = [] ∧
      (BatchTAOTransfer.run rt w inp.privateKey inp.confirm chain).results = none ∧
      sends (TAOTransfer.run rt w inp chain).trace = [] ∧
      (TAOTransfer.run rt w inp chain).receipt = none) ∧
    ((rt.toLowerCase inp.confirm = "yes" ∨ rt.toLowerCase inp.confirm = "y") →
      (∀ (c : σ) (tr : List (Event ν)) (balance : Nat),
        BatchTAOTransfer.init rt w inp.privateKey chain = (c, tr, .ok balance) →
        (BatchTAOTransfer.run rt w inp.privateKey inp.confirm chain).results =
            some (BatchTAOTransfer.batchTransfer rt w BatchTAOTransfer.recipients c).results ∧
          (BatchTAOTransfer.run rt w inp.privateKey inp.confirm chain).trace =
            tr ++ [.question "\nProceed with batch transfer? (yes/no): "] ++
              (BatchTAOTransfer.batchTransfer rt w BatchTAOTransfer.recipients c).trace ∧
          sends (BatchTAOTransfer.run rt w inp.privateKey inp.confirm chain).trace =
            (BatchTAOTransfer.recipients (ν := ν)).filterMap (BatchTAOTransfer.intent rt)) ∧
      (∀ (st1 st2 st3 st4 st5 : TAOTransfer.RunState σ ν) (address : String) (balance : Nat)
          (details : TAOTransfer.TransferDetails ν) (gas : TAOTransfer.GasInfo),
        TAOTransfer.init w { chain := chain, trace := [] } = (st1, .ok ()) →
        TAOTransfer.getWalletInfo rt inp.privateKey st1 = (st2, .ok address) →
        TAOTransfer.checkBalance w address st2 = (st3, .ok balance) →
        TAOTransfer.getTransferDetails rt inp.receiverAddress inp.amountInput st3 =
          (st4, .ok details) →
        TAOTransfer.estimateGas w address details.receiverAddress details.amountWei st4 =
          (st5, .ok gas) →
        details.amountWei + gas.estimatedFee ≤ balance →
        sends (TAOTransfer.run rt w inp chain).trace =
            [{ to_ := inp.receiverAddress, value := details.amountWei, gasLimit := 21000 }] ∧
          Event.question "\nConfirm transfer? (yes/no): " ∈
            (TAOTransfer.run rt w inp chain).trace)) := by
  have hbatch := BatchTAOTransfer.batch_run_cases rt w inp.privateKey inp.confirm chain
  have hsingle := TAOTransfer.run_cases rt w inp chain
  refine ⟨fun hno => ⟨?_, ?_, ?_, ?_⟩, fun hyes => ⟨?_, ?_⟩⟩
  · rcases hbatch with ⟨c, h⟩ | ⟨c, -, h⟩ | ⟨c, hy, -⟩
    · rw [h]; rfl
    · rw [h]; rfl
    · rcases hy with hy | hy
      · exact absurd hy hno.1
      · exact absurd hy hno.2
  · rcases hbatch with ⟨c, h⟩ | ⟨c, -, h⟩ | ⟨c, hy, -⟩
    · rw [h]
    · rw [h]
    · rcases hy with hy | hy
      · exact absurd hy hno.1
      · exact absurd hy hno.2
  · rcases hsingle with ⟨st, h, hq, -, hrun⟩ | ⟨st, details, hq, -, hrun⟩
    · rw [hrun, (TAOTransfer.halted_trace st h).1]; exact hq.1
    · rw [hrun, if_pos hno]
      simp only [sends_append, hq.1]; rfl
  · rcases hsingle with ⟨st, h, hq, -, hrun⟩ | ⟨st, details, hq, -, hrun⟩
    · rw [hrun, (TAOTransfer.halted_trace st h).2]
    · rw [hrun, if_pos hno]
  · intro c tr balance hinit
    have htr := BatchTAOTransfer.init_trace (ν := ν) rt w inp.privateKey chain
    rw [hinit] at htr
    simp only [] at htr
    rw [BatchTAOTransfer.batch_run_confirmed rt w inp.privateKey inp.confirm chain c tr balance
      hinit hyes]
    refine ⟨rfl, rfl, ?_⟩
    simp only [sends_append, BatchTAOTransfer.sends_batchTransfer, htr]
    rfl
  · intro st1 st2 st3 st4 st5 address balance details gas hinit hwallet hbal hdet hgas hfunds
    exact TAOTransfer.single_run_confirmed rt w inp chain st1 st2 st3 st4 st5 address balance
      details gas hinit hwallet hbal hdet hgas hfunds hyes

/-- C8, on concrete runs with a funded wallet: the answer "no" leaves both traces without a
submission; the answer "yes" makes the batch run return the results of `batchTransfer` on the
hard-coded list, with the three submissions to A, B, C in its trace, and makes the
single-transfer run submit the one transaction to A. -/
theorem confirmation_gates_submission_witness :
    (sends (BatchTAOTransfer.run (ν := Dec) mockRuntime
          (mockProvider addrB 1 1000000000000000000) mockKey "no" 0).trace = [] ∧
      (BatchTAOTransfer.run (ν := Dec) mockRuntime (mockProvider addrB 1 1000000000000000000)
        mockKey "no" 0).results = none ∧
      sends (TAOTransfer.run mockRuntime (mockProvider addrB 1 1000000000000000000)
        (mockInputs "0.1" "no") 0).trace = [] ∧
      (TAOTransfer.run mockRuntime (mockProvider addrB 1 1000000000000000000)
        (mockInputs "0.1" "no") 0).receipt = none) ∧
    ((BatchTAOTransfer.run (ν := Dec) mockRuntime (mockProvider addrB 1 1000000000000000000)
          mockKey "YES" 0).results =
        some (BatchTAOTransfer.batchTransfer mockRuntime
          (mockProvider addrB 1 1000000000000000000) BatchTAOTransfer.recipients 0).results ∧
      (BatchTAOTransfer.run (ν := Dec) mockRuntime (mockProvider addrB 1 1000000000000000000)
          mockKey "YES" 0).trace =
        [.question "Enter sender private key: "] ++
          [.question "\nProceed with batch transfer? (yes/no): "] ++
          (BatchTAOTransfer.batchTransfer mockRuntime
            (mockProvider addrB 1 1000000000000000000) BatchTAOTransfer.recipients 0).trace ∧
      sends (BatchTAOTransfer.run (ν := Dec) mockRuntime
          (mockProvider addrB 1 1000000000000000000) mockKey "YES" 0).trace =
        (BatchTAOTransfer.recipients (ν := Dec)).filterMap
          (BatchTAOTransfer.intent mockRuntime)) ∧
    (sends (TAOTransfer.run mockRuntime (mockProvider addrB 1 1000000000000000000)
          (mockInputs "0.1" "y") 0).trace = [txA] ∧
      Event.question "\nConfirm transfer? (yes/no): " ∈
        (TAOTransfer.run mockRuntime (mockProvider addrB 1 1000000000000000000)
          (mockInputs "0.1" "y") 0).trace) :=
  ⟨(confirmation_gates_submission mockRuntime (mockProvider addrB 1 1000000000000000000)
      (mockInputs "0.1" "no") 0).1 (by decide),
   ((confirmation_gates_submission mockRuntime (mockProvider addrB 1 1000000000000000000)
      (mockInputs "0.1" "YES") 0).2 (by decide)).1 0 [.question "Enter sender private key: "]
      1000000000000000000 rfl,
   ((confirmation_gates_submission mockRuntime (mockProvider addrB 1 1000000000000000000)
      (mockInputs "0.1" "y") 0).2 (by decide)).2
      { chain := 0, trace := [] }
      { chain := 0, trace := [.question "Enter sender private key (without 0x prefix): "] }
      { chain := 0, trace := [.question "Enter sender private key (without 0x prefix): "] }
      { chain := 0, trace := [.question "Enter sender private key (without 0x prefix): ",
          .question "Enter receiver address: ", .question "Enter amount to transfer (in TAO): "] }
      { chain := 0, trace := [.question "Enter sender private key (without 0x prefix): ",
          .question "Enter receiver address: ", .question "Enter amount to transfer (in TAO): "] }
      "0xSender" 1000000000000000000
      { receiverAddress := addrA, amount := ⟨1, 1⟩, amountWei := 100000000000000000 }
      { gasEstimate := 21000, gasPrice := 10, estimatedFee := 210000 }
      rfl rfl rfl rfl rfl (by decide)⟩

/-- The single-transfer script ends with exit code 1 whenever its initialization throws (the
network query, the wallet construction, or the balance query), and with exit code 0 exactly on
user cancellation or completion of the transfer. -/
theorem single_exit_codes {σ η ν : Type} (rt : Runtime ν) (w : Provider σ η)
    (inp : TAOTransfer.Inputs) (chain : σ) :
    (∀ c e, w.getNetwork chain = (c, .error e) →
      (TAOTransfer.run rt w inp chain).exitCode = 1) ∧
    (∀ c e, w.getNetwork chain = (c, .ok ()) →
      rt.newWallet (formatPrivateKey inp.privateKey) = .error e →
      (TAOTransfer.run rt w inp chain).exitCode = 1) ∧
    (∀ c address c2 e, w.getNetwork chain = (c, .ok ()) →
      rt.newWallet (formatPrivateKey inp.privateKey) = .ok address →
      w.getBalance c address = (c2, .error e) →
      (TAOTransfer.run rt w inp chain).exitCode = 1) ∧
    ((TAOTransfer.run rt w inp chain).exitCode = 0 ↔
      Event.question "\nConfirm transfer? (yes/no): " ∈ (TAOTransfer.run rt w inp chain).trace ∧
        ((rt.toLowerCase inp.confirm ≠ "yes" ∧ rt.toLowerCase inp.confirm ≠ "y") ∨
          (TAOTransfer.run rt w inp chain).receipt ≠ none)) ∧
    ((TAOTransfer.run rt w inp chain).exitCode = 0 ∨
      (TAOTransfer.run rt w inp chain).exitCode = 1) := by
  refine ⟨?_, ?_, ?_, (TAOTransfer.run_exitCode rt w inp chain).1,
    (TAOTransfer.run_exitCode rt w inp chain).2⟩
  · intro c e hnet
    unfold TAOTransfer.run TAOTransfer.init
    simp only [hnet]
    rfl
  · intro c e hnet hwallet
    unfold TAOTransfer.run TAOTransfer.init TAOTransfer.getWalletInfo
    simp only [hnet, hwallet]
    by_cases hk : inp.privateKey = ""
    · rw [if_pos hk]; rfl
    · rw [if_neg hk]; rfl
  · intro c address c2 e hnet hwallet hbal
    unfold TAOTransfer.run TAOTransfer.init TAOTransfer.getWalletInfo TAOTransfer.checkBalance
    simp only [hnet, hwallet]
    by_cases hk : inp.privateKey = ""
    · rw [if_pos hk]; rfl
    · rw [if_neg hk]
      simp only [hbal]
      rfl

/-- A batch run ends with exit code 0 whatever happens: `run` catches every error and only
prints it, and the file never calls `process.exit`. -/
theorem batch_exit_code {σ η ν : Type} [OfScientific ν] (rt : Runtime ν) (w : Provider σ η)
    (privateKey confirm : String) (chain : σ) :
    (BatchTAOTransfer.run rt w privateKey confirm chain).exitCode = 0 := by
  rcases BatchTAOTransfer.batch_run_cases rt w privateKey confirm chain with
    ⟨c, h⟩ | ⟨c, -, h⟩ | ⟨c, -, h⟩ <;> rw [h]

/-- C9, evaluated where the code departs from it: with a key the wallet constructor rejects,
`initialize()` of the batch script throws "invalid private key", its `run` only prints the
error and the process ends with exit code 0, not 1; and likewise when the initial balance
query throws because the network is unreachable.  On the same rejected key the single-transfer
script ends with exit code 1. -/
theorem batch_init_error_exit_code :
    (∃ c tr, (BatchTAOTransfer.init mockRuntime (mockProvider addrB 1 0) "not a key" 0 :
        Nat × List (Event Dec) × Except String Nat) = (c, tr, .error "invalid private key")) ∧
    (BatchTAOTransfer.run (ν := Dec) mockRuntime (mockProvider addrB 1 0)
        "not a key" "yes" 0).exitCode = 0 ∧
    (∃ c tr, (BatchTAOTransfer.init mockRuntime unreachableProvider mockKey 0 :
        Nat × List (Event Dec) × Except String Nat) = (c, tr, .error "network unreachable")) ∧
    (BatchTAOTransfer.run (ν := Dec) mockRuntime unreachableProvider mockKey "yes" 0).exitCode
      = 0 ∧
    (TAOTransfer.run mockRuntime (mockProvider addrB 1 0)
        { privateKey := "not a key", receiverAddress := addrA, amountInput := "0.1",
          confirm := "yes" } 0).exitCode = 1 :=
  ⟨⟨0, _, rfl⟩, by decide, ⟨0, _, rfl⟩, by decide, by decide⟩
